import Mathlib

/-!
# Verification of the `strtotime` date-expression parser

A shallow embedding, in Lean, of the Go package `strtotime` (a PHP-style
natural-language date/time parser), together with proofs about it.

* The civil-calendar core models the date arithmetic of Go's `time` package
  (`time.Date`, `time.Time.AddDate`, `time.Unix`, the field accessors): a
  `time.Time` is absolute seconds/nanoseconds since the Unix epoch plus a
  display offset.  Locations are modelled as fixed UTC offsets in seconds
  (a DST-less simplification of named zones; all inputs examined here stay
  in UTC).  The host timezone database (`time.LoadLocation`) is a parameter
  `db : List Char → Option Int`.
* Strings are modelled as `List Char`.  The inputs exercised are ASCII, where
  Go's byte/rune distinction and the Unicode extent of `unicode.IsSpace`,
  `unicode.IsDigit` and `strings.ToLower` are immaterial.
* The regular expressions of the source are hand-compiled to matching
  functions with Go's leftmost-first submatch semantics on the shapes they
  are applied to.
* Recursion of the compound orchestrator is fuelled; fuel exhaustion returns
  a distinguished error and never occurs for the inputs examined.
-/

namespace StrToTime

/-! ## Civil calendar core (model of Go `time` essentials, proleptic Gregorian) -/

/-- Days since 1970-01-01 of the civil date `(y, m, d)`, for `m ∈ [1,12]`
(affine in `d`, so an out-of-range `d` is handled exactly the way Go's
`time.Date` normalization handles it: by adding the excess days). -/
def daysFromCivil (y m d : Int) : Int :=
  let y' := y - (if m ≤ 2 then 1 else 0)
  let era := y' / 400
  let yoe := y' - era * 400
  let doy := (153 * (m + (if 2 < m then -3 else 9)) + 2) / 5 + d - 1
  let doe := yoe * 365 + yoe / 4 - yoe / 100 + doy
  era * 146097 + doe - 719468

/-- Civil date `(y, m, d)` of the day `z` counted from 1970-01-01, computed by
peeling eras (400 y), centuries, quadrennia and years.  `daysFromCivil` is
proved below to be its two-sided inverse with `m ∈ [1,12]`,
`d ∈ [1, month length]`, which characterizes the Gregorian calendar. -/
def civilFromDays (z : Int) : Int × Int × Int :=
  let z' := z + 719468
  let era := z' / 146097
  let doe := z' - era * 146097
  let c := min (doe / 36524) 3
  let dc := doe - 36524 * c
  let q := min (dc / 1461) 24
  let dq := dc - 1461 * q
  let yq := min (dq / 365) 3
  let doy := dq - 365 * yq
  let yoe := 100 * c + 4 * q + yq
  let mp := (5 * doy + 2) / 153
  let d := doy - (153 * mp + 2) / 5 + 1
  let m := mp + (if mp < 10 then 3 else -9)
  (yoe + era * 400 + (if m ≤ 2 then 1 else 0), m, d)

/-- Gregorian leap-year rule (`IsLeapYear`, modelled from the spec: divisible
by 4, not by 100 unless by 400; the function itself is absent from the given
source files, only its callers are). -/
def isLeapYear (y : Int) : Bool := y % 4 == 0 && (y % 100 != 0 || y % 400 == 0)

/-- Number of days of month `m` of year `y` under the Gregorian rule (the
spec's days-in-that-month-and-year). -/
def dimGreg (y m : Int) : Int :=
  if m = 2 then (if isLeapYear y then 29 else 28)
  else if m = 4 ∨ m = 6 ∨ m = 9 ∨ m = 11 then 30 else 31

/-- A Go `time.Time`: absolute seconds and nanoseconds since the Unix epoch,
plus its display location, modelled as a fixed offset east of UTC in seconds
(`0` is UTC). -/
structure GoTime where
  sec : Int
  nsec : Int
  loc : Int
  deriving DecidableEq, Repr

/-- A `GoTime` as produced by the Go constructors: nanoseconds normalized. -/
def GoTime.wf (t : GoTime) : Prop := 0 ≤ t.nsec ∧ t.nsec < 1000000000

instance (t : GoTime) : Decidable t.wf := by unfold GoTime.wf; infer_instance

instance {ε α : Type} [DecidableEq ε] [DecidableEq α] : DecidableEq (Except ε α) :=
  fun a b =>
    match a, b with
    | .ok x, .ok y =>
      if h : x = y then isTrue (by rw [h])
      else isFalse (fun he => h (by injection he))
    | .error x, .error y =>
      if h : x = y then isTrue (by rw [h])
      else isFalse (fun he => h (by injection he))
    | .ok _, .error _ => isFalse (fun he => Except.noConfusion he)
    | .error _, .ok _ => isFalse (fun he => Except.noConfusion he)

/-- Model of `time.Unix(sec, nsec)` in location `loc`: nanoseconds are
normalized into `[0, 1e9)`, carrying into the seconds. -/
def unixTime (sec nsec loc : Int) : GoTime :=
  ⟨sec + nsec / 1000000000, nsec % 1000000000, loc⟩

/-- The wall-clock seconds used by the field accessors: absolute seconds
shifted by the display offset. -/
def GoTime.wall (t : GoTime) : Int := t.sec + t.loc

/-- Wall-clock day number (days since 1970-01-01 in the display zone). -/
def GoTime.days (t : GoTime) : Int := t.wall / 86400

def GoTime.year (t : GoTime) : Int := (civilFromDays t.days).1
def GoTime.month (t : GoTime) : Int := (civilFromDays t.days).2.1
def GoTime.day (t : GoTime) : Int := (civilFromDays t.days).2.2
def GoTime.hour (t : GoTime) : Int := t.wall % 86400 / 3600
def GoTime.minute (t : GoTime) : Int := t.wall % 3600 / 60
def GoTime.second (t : GoTime) : Int := t.wall % 60

/-- Model of `time.Time.Weekday()` (0 = Sunday … 6 = Saturday); 1970-01-01
was a Thursday. -/
def GoTime.weekday (t : GoTime) : Int := (t.days + 4) % 7

/-- Model of `time.Time.In(loc)`: same instant, new display offset. -/
def GoTime.inLoc (t : GoTime) (loc : Int) : GoTime := ⟨t.sec, t.nsec, loc⟩

/-- The wall-clock seconds assembled by Go's `time.Date` before conversion to
an absolute time: the month is normalized into `[1,12]` adjusting the year,
every other component may lie outside its usual range and simply adds up. -/
def goDateSec (y m d hh mi ss : Int) : Int :=
  let yy := y + (m - 1) / 12
  let mm := (m - 1) % 12 + 1
  (daysFromCivil yy mm 1 + (d - 1)) * 86400 + hh * 3600 + mi * 60 + ss

/-- Model of Go `time.Date(y, m, d, hh, mi, ss, ns, loc)`. -/
def goDate (y m d hh mi ss ns loc : Int) : GoTime :=
  unixTime (goDateSec y m d hh mi ss - loc) ns loc

/-- Model of Go `time.Time.AddDate(years, months, days)`: rebuilds the date
from the wall-clock fields, with `time.Date` normalization. -/
def GoTime.addDate (t : GoTime) (ys ms ds : Int) : GoTime :=
  goDate (t.year + ys) (t.month + ms) (t.day + ds) t.hour t.minute t.second t.nsec t.loc

/-- Model of Go `time.Time.Add(d)` for a duration of `s` whole seconds. -/
def GoTime.addSec (t : GoTime) (s : Int) : GoTime := ⟨t.sec + s, t.nsec, t.loc⟩

/-- `daysInMonth` from `strtotime.go`: the first day of the next month minus
one day, computed in UTC exactly as the source does. -/
def daysInMonth (year month : Int) : Int :=
  ((goDate year (month + 1) 1 0 0 0 0 0).addDate 0 0 (-1)).day

/-- The date-only truncation used throughout the source:
`time.Date(t.Year(), t.Month(), t.Day(), 0, 0, 0, 0, loc)`. -/
def dateOnly (t : GoTime) (loc : Int) : GoTime :=
  goDate t.year t.month t.day 0 0 0 0 loc

/-! ## Characters and strings (ASCII fragment of Go's `strings`/`unicode`) -/

/-- `unicode.IsSpace` (ASCII fragment). -/
def isSpaceChar (c : Char) : Bool :=
  c = ' ' || c = '\t' || c = '\n' || c = '\r' || c = '\x0b' || c = '\x0c'

/-- `unicode.IsDigit` (ASCII fragment). -/
def isDigitChar (c : Char) : Bool := '0' ≤ c && c ≤ '9'

def isAlphaChar (c : Char) : Bool := ('a' ≤ c && c ≤ 'z') || ('A' ≤ c && c ≤ 'Z')

/-- `strings.ToLower` (ASCII fragment). -/
def toLowerL (s : List Char) : List Char := s.map Char.toLower

/-- `strings.TrimSpace`. -/
def trimL (s : List Char) : List Char :=
  ((s.dropWhile isSpaceChar).reverse.dropWhile isSpaceChar).reverse

/-- `strings.HasPrefix`. -/
def startsWith (pre s : List Char) : Bool := List.isPrefixOf pre s

/-- `strings.Contains` for one character. -/
def containsChar (s : List Char) (c : Char) : Bool := s.contains c

/-- `strings.Count` for one character. -/
def countChar (s : List Char) (c : Char) : Nat := s.countP (· = c)

/-- `strings.Split` at a separator character. -/
def splitChar (sep : Char) : List Char → List (List Char)
  | [] => [[]]
  | c :: rest =>
    let r := splitChar sep rest
    if c = sep then [] :: r
    else match r with
      | [] => [[c]]
      | h :: t => (c :: h) :: t

/-- `strings.SplitN(s, " ", 2)`: the part before the first space, and, when a
space occurs, the remainder after it. -/
def splitFirstSpace : List Char → List Char × Option (List Char)
  | [] => ([], none)
  | c :: rest =>
    if c = ' ' then ([], some rest)
    else
      let r := splitFirstSpace rest
      (c :: r.1, r.2)

/-- `strings.ReplaceAll` for single characters. -/
def replaceChar (s : List Char) (from' to' : Char) : List Char :=
  s.map (fun c => if c = from' then to' else c)

/-- `strings.Title` (word-initial letters upper-cased). -/
def titleL : List Char → List Char :=
  go true
where
  go : Bool → List Char → List Char
  | _, [] => []
  | atStart, c :: rest =>
    if isAlphaChar c then (if atStart then c.toUpper else c) :: go false rest
    else c :: go true rest

/-- Numeric value of a digit run. -/
def natOfDigits (s : List Char) : Nat :=
  s.foldl (fun n c => n * 10 + (c.toNat - 48)) 0

/-- `strconv.ParseInt(s, 10, 64)` (also `strconv.Atoi`): optional sign, at
least one digit, all digits, 64-bit signed range. -/
def parseInt64 (s : List Char) : Option Int :=
  let (sign, body) : Int × List Char :=
    match s with
    | '+' :: rest => (1, rest)
    | '-' :: rest => (-1, rest)
    | _ => (1, s)
  if body = [] then none
  else if body.all isDigitChar then
    let v : Int := sign * (natOfDigits body : Int)
    if v < -(2 ^ 63) ∨ 2 ^ 63 - 1 < v then none else some v
  else none

/-- The longest digit prefix of `s` and the rest (`\d+`, greedy). -/
def spanDigits (s : List Char) : List Char × List Char :=
  (s.takeWhile isDigitChar, s.dropWhile isDigitChar)

/-- The longest letter prefix of `s` and the rest (`[A-Za-z]+`, greedy). -/
def spanAlpha (s : List Char) : List Char × List Char :=
  (s.takeWhile isAlphaChar, s.dropWhile isAlphaChar)

/-- The longest space prefix of `s` and the rest (`\s+`, greedy). -/
def spanSpace (s : List Char) : List Char × List Char :=
  (s.takeWhile isSpaceChar, s.dropWhile isSpaceChar)

/-- Match `\d{lo,hi}` (greedy, as used when the next pattern element cannot
match a digit): the digit run, its value and the rest, provided the run
length lies in `[lo, hi]`. -/
def digitsRange (lo hi : Nat) (s : List Char) : Option (Nat × List Char) :=
  let (ds, rest) := spanDigits s
  if lo ≤ ds.length ∧ ds.length ≤ hi then some (natOfDigits ds, rest) else none

/-- Match `\s+` (greedy, next element cannot match a space). -/
def spacePlus (s : List Char) : Option (List Char) :=
  let (ws, rest) := spanSpace s
  if ws.length = 0 then none else some rest

/-! ## Timezone resolver (`tryParseTimezone`, latest snapshot)

Zones are fixed offsets in seconds; the built-in abbreviation table carries a
representative standard offset of the named zone it maps to.  The host zone
database `time.LoadLocation` is abstracted as `db : List Char → Option Int`.
-/

/-- `isValidTimezoneChar`. -/
def isValidTimezoneChar (c : Char) : Bool :=
  ('a' ≤ c && c ≤ 'z') || ('A' ≤ c && c ≤ 'Z') || ('0' ≤ c && c ≤ '9') ||
  c = '/' || c = '_' || c = '-' || c = '+' || c = ' '

/-- `timezoneAbbreviations` (fixed-offset stand-ins for the mapped zones). -/
def timezoneAbbreviations : List (List Char × Int) :=
  [("est".data, -18000), ("edt".data, -18000), ("cst".data, -21600),
   ("cdt".data, -21600), ("mst".data, -25200), ("mdt".data, -25200),
   ("pst".data, -28800), ("pdt".data, -28800), ("akst".data, -32400),
   ("akdt".data, -32400), ("hst".data, -36000),
   ("gmt".data, 0), ("bst".data, 0), ("iet".data, 0), ("cet".data, 3600),
   ("cest".data, 3600), ("eet".data, 7200), ("eest".data, 7200),
   ("awst".data, 28800), ("acst".data, 34200), ("aest".data, 36000),
   ("aedt".data, 36000), ("jst".data, 32400), ("ct".data, 28800),
   ("ist".data, 19800), ("utc".data, 0), ("z".data, 0)]

/-- `timezoneNames` (full names → canonical zone identifiers, looked up in the
host database). -/
def timezoneNames : List (List Char × List Char) :=
  [("eastern time".data, "America/New_York".data),
   ("et".data, "America/New_York".data),
   ("eastern".data, "America/New_York".data),
   ("central time".data, "America/Chicago".data),
   ("ct".data, "America/Chicago".data),
   ("central".data, "America/Chicago".data),
   ("mountain time".data, "America/Denver".data),
   ("mt".data, "America/Denver".data),
   ("mountain".data, "America/Denver".data),
   ("pacific time".data, "America/Los_Angeles".data),
   ("pt".data, "America/Los_Angeles".data),
   ("pacific".data, "America/Los_Angeles".data),
   ("alaska time".data, "America/Anchorage".data),
   ("alaska".data, "America/Anchorage".data),
   ("hawaii time".data, "Pacific/Honolulu".data),
   ("hawaii".data, "Pacific/Honolulu".data),
   ("greenwich mean time".data, "Europe/London".data),
   ("british time".data, "Europe/London".data),
   ("british".data, "Europe/London".data),
   ("western european time".data, "Europe/London".data),
   ("central european time".data, "Europe/Paris".data),
   ("eastern european time".data, "Europe/Helsinki".data),
   ("australian western time".data, "Australia/Perth".data),
   ("australian central time".data, "Australia/Adelaide".data),
   ("australian eastern time".data, "Australia/Sydney".data),
   ("japan time".data, "Asia/Tokyo".data),
   ("china time".data, "Asia/Shanghai".data),
   ("india time".data, "Asia/Kolkata".data),
   ("india".data, "Asia/Kolkata".data),
   ("universal time".data, "UTC".data),
   ("universal coordinated time".data, "UTC".data),
   ("zulu time".data, "UTC".data),
   ("zulu".data, "UTC".data)]

def lookupTable {α : Type} (tbl : List (List Char × α)) (key : List Char) : Option α :=
  (tbl.find? (fun e => e.1 = key)).map (·.2)

/-- The lookup strategies of `tryParseTimezone` that run after the admission
check (abbreviation table, full-name table, host lookup, title-cased
region/city retry, underscore retry). -/
def tzStrategies (db : List Char → Option Int) (tzString : List Char) : Option Int :=
  let tzLower := toLowerL tzString
  if tzLower = "america/new_york".data then
    some ((db "America/New_York".data).getD 0)
  else match lookupTable timezoneAbbreviations tzLower with
  | some off => some off
  | none =>
    match lookupTable timezoneNames tzLower with
    | some canonical =>
      match db canonical with
      | some off => some off
      | none => tzRest db tzString
    | none => tzRest db tzString
where
  /-- Strategies 3–5: direct host lookup, `Region/City` title-casing, and the
  underscore variant. -/
  tzRest (db : List Char → Option Int) (tzString : List Char) : Option Int :=
    match db tzString with
    | some off => some off
    | none =>
      let parts := splitChar '/' tzString
      let bySlash :=
        match parts with
        | [region, city] =>
          if region.length = 0 ∨ city.length = 0 then none
          else db (titleL (toLowerL region) ++ '/' :: titleL (toLowerL city))
        | _ => none
      match bySlash with
      | some off => some off
      | none =>
        if containsChar tzString '_' then
          match splitChar '/' (replaceChar tzString '_' ' ') with
          | [region, city] =>
            if region.length = 0 ∨ city.length = 0 then none
            else db (titleL (toLowerL region) ++ '/' ::
                     replaceChar (titleL (toLowerL city)) ' ' '_')
          | _ => none
        else none

/-- `tryParseTimezone` from the timezone resolver: admission check (length at
least 2, characters from `isValidTimezoneChar`), then the lookup
strategies. -/
def tryParseTimezone (db : List Char → Option Int) (tzString : List Char) : Option Int :=
  if tzString.length < 2 then none
  else if ¬ tzString.all isValidTimezoneChar then none
  else tzStrategies db tzString

/-! ## Date-validity utilities (modelled from the spec)

`IsValidDate`/`IsValidTime` are called by the source but their defining file
is not among the given sources.  Modelled from the spec: day-of-month at most
days-in-that-month-and-year (Gregorian leap rule), year in `[1, 9999]`, clock
components in `[0,23]/[0,59]/[0,59]`. -/

/-- Modelled from the spec: `IsValidDate` (the definition is missing from the
given sources; the spec states day ≤ days-in-month-and-year, Gregorian leap
rule, year in `[1, 9999]`). -/
def IsValidDate (y m d : Int) : Bool :=
  1 ≤ y && y ≤ 9999 && 1 ≤ m && m ≤ 12 && 1 ≤ d && d ≤ dimGreg y m

/-- Modelled from the spec: `IsValidTime` (missing from the given sources;
the spec states hour/minute/second in `[0,23]/[0,59]/[0,59]`). -/
def IsValidTime (h mi s : Int) : Bool :=
  0 ≤ h && h ≤ 23 && 0 ≤ mi && mi ≤ 59 && 0 ≤ s && s ≤ 59

/-! ## Format sub-parsers from `date_formats.go` -/

/-- `parseTwoDigitYear`: 00–69 → 2000–2069, 70–99 → 1970–1999. -/
def parseTwoDigitYear (year : Int) : Int :=
  if year < 100 then (if year < 70 then year + 2000 else year + 1900) else year

/-- The component orders accepted by `parseDateFormat`. -/
inductive DateOrder | ymd | mdy | dmy
  deriving DecidableEq, Repr

/-- `parseDateFormat`: split on the first non-digit character, three numeric
components in the order given, month `1–12`, day `1–31`, two-digit years
mapped through `parseTwoDigitYear`. -/
def parseDateFormat (s : List Char) (fmt : DateOrder) (loc : Int) : Option GoTime :=
  match s.find? (fun c => ¬ isDigitChar c) with
  | none => none
  | some sep =>
    match splitChar sep s with
    | [p1, p2, p3] =>
      let (ys, ms, ds) :=
        match fmt with
        | .ymd => (p1, p2, p3)
        | .mdy => (p3, p1, p2)
        | .dmy => (p3, p2, p1)
      match parseInt64 ys, parseInt64 ms, parseInt64 ds with
      | some year, some month, some day =>
        if month < 1 ∨ 12 < month then none
        else if day < 1 ∨ 31 < day then none
        else
          let year := if year < 100 then parseTwoDigitYear year else year
          some (goDate year month day 0 0 0 0 loc)
      | _, _, _ => none
    | _ => none

/-- `isNumericPattern`: exactly three digit groups joined by `sep`, each
nonempty, the first of length `firstPartLen` when that is positive. -/
def isNumericPattern (s : List Char) (firstPartLen : Nat) (sep : Char) : Bool :=
  go s 0 0 0 0
where
  check (p0 p1 p2 : Nat) (pi : Nat) (firstPartLen : Nat) : Bool :=
    pi = 2 && (firstPartLen = 0 || p0 = firstPartLen) && 0 < p0 && 0 < p1 && 0 < p2
  go : List Char → Nat → Nat → Nat → Nat → Bool
  | [], p0, p1, p2, pi => check p0 p1 p2 pi firstPartLen
  | c :: rest, p0, p1, p2, pi =>
    if isDigitChar c then
      match pi with
      | 0 => go rest (p0+1) p1 p2 pi
      | 1 => go rest p0 (p1+1) p2 pi
      | _ => go rest p0 p1 (p2+1) pi
    else if c = sep then
      if 2 ≤ pi then false else go rest p0 p1 p2 (pi+1)
    else false

/-- `parseISOFormat` (`YYYY-MM-DD`). -/
def parseISOFormat (s : List Char) (loc : Int) : Option GoTime :=
  if 8 ≤ s.length ∧ s.length ≤ 10 ∧ isNumericPattern s 4 '-' then
    parseDateFormat s .ymd loc
  else none

/-- `parseSlashFormat` (`YYYY/MM/DD`). -/
def parseSlashFormat (s : List Char) (loc : Int) : Option GoTime :=
  if 8 ≤ s.length ∧ s.length ≤ 10 ∧ isNumericPattern s 4 '/' then
    parseDateFormat s .ymd loc
  else none

/-- `parseUSFormat` (`MM/DD/YYYY`). -/
def parseUSFormat (s : List Char) (loc : Int) : Option GoTime :=
  if 8 ≤ s.length ∧ s.length ≤ 10 ∧ countChar s '/' = 2 then
    match splitChar '/' s with
    | [_, _, p3] => if p3.length = 4 then parseDateFormat s .mdy loc else none
    | _ => none
  else none

/-- `parseEuropeanFormat` (`DD.MM.YY` or `DD.MM.YYYY`). -/
def parseEuropeanFormat (s : List Char) (loc : Int) : Option GoTime :=
  if 6 ≤ s.length ∧ s.length ≤ 10 ∧ countChar s '.' = 2 then
    match splitChar '.' s with
    | [p1, p2, p3] =>
      if (p1 ++ p2 ++ p3).all isDigitChar then parseDateFormat s .dmy loc
      else none
    | _ => none
  else none

/-! ## Name tables (`getMonthByName`, `getDayOfWeek`) -/

/-- `getMonthByName`: full and three-letter month names (case-insensitive). -/
def getMonthByName (name : List Char) : Option Int :=
  lookupTable
    [("january".data, 1), ("jan".data, 1), ("february".data, 2), ("feb".data, 2),
     ("march".data, 3), ("mar".data, 3), ("april".data, 4), ("apr".data, 4),
     ("may".data, 5), ("june".data, 6), ("jun".data, 6), ("july".data, 7),
     ("jul".data, 7), ("august".data, 8), ("aug".data, 8), ("september".data, 9),
     ("sep".data, 9), ("october".data, 10), ("oct".data, 10), ("november".data, 11),
     ("nov".data, 11), ("december".data, 12), ("dec".data, 12)]
    (toLowerL name)

/-- `getDayOfWeek`: 0 = Sunday … 6 = Saturday, `-1` when unknown. -/
def getDayOfWeek (day : List Char) : Int :=
  match lookupTable
    [("sunday".data, 0), ("sun".data, 0), ("monday".data, 1), ("mon".data, 1),
     ("tuesday".data, 2), ("tue".data, 2), ("wednesday".data, 3), ("wed".data, 3),
     ("thursday".data, 4), ("thu".data, 4), ("friday".data, 5), ("fri".data, 5),
     ("saturday".data, 6), ("sat".data, 6)]
    (toLowerL day) with
  | some n => n
  | none => -1

/-! ## Extended format sub-parsers (compact, month-name-dash, HTTP log,
numbered weekday) -/

/-- `parseCompactTimestamp` (`YYYYMMDDhhmmss`, exactly 14 digits). -/
def parseCompactTimestamp (s : List Char) (loc : Int) : Option GoTime :=
  if s.length = 14 ∧ s.all isDigitChar then
    let y : Int := natOfDigits (s.take 4)
    let mo : Int := natOfDigits ((s.drop 4).take 2)
    let d : Int := natOfDigits ((s.drop 6).take 2)
    let h : Int := natOfDigits ((s.drop 8).take 2)
    let mi : Int := natOfDigits ((s.drop 10).take 2)
    let se : Int := natOfDigits ((s.drop 12).take 2)
    if mo < 1 ∨ 12 < mo ∨ d < 1 ∨ 31 < d then none
    else if h < 0 ∨ 23 < h ∨ mi < 0 ∨ 59 < mi ∨ se < 0 ∨ 59 < se then none
    else some (goDate y mo d h mi se 0 loc)
  else none

/-- The match of `^([A-Za-z]{3,})-(\d{1,2})-(\d{4})$`. -/
def matchMonthNameMDY (s : List Char) : Option (List Char × Nat × Nat) :=
  let (w, r1) := spanAlpha s
  if w.length < 3 then none
  else match r1 with
  | '-' :: r2 =>
    match digitsRange 1 2 r2 with
    | some (d, r3) =>
      match r3 with
      | '-' :: r4 =>
        match digitsRange 4 4 r4 with
        | some (y, []) => some (w, d, y)
        | _ => none
      | _ => none
    | none => none
  | _ => none

/-- The match of `^(\d{4})-([A-Za-z]{3,})-(\d{1,2})$`. -/
def matchMonthNameYMD (s : List Char) : Option (Nat × List Char × Nat) :=
  match digitsRange 4 4 s with
  | some (y, '-' :: r2) =>
    let (w, r3) := spanAlpha r2
    if w.length < 3 then none
    else match r3 with
    | '-' :: r4 =>
      match digitsRange 1 2 r4 with
      | some (d, []) => some (y, w, d)
      | _ => none
    | _ => none
  | _ => none

/-- `parseMonthNameFormat` (`Jan-15-2006` / `2006-Jan-15`), validated through
`IsValidDate`. -/
def parseMonthNameFormat (s : List Char) (loc : Int) : Option GoTime :=
  match matchMonthNameMDY s with
  | some (monthName, d, y) =>
    match getMonthByName monthName with
    | some mo =>
      if IsValidDate y mo d then some (goDate y mo d 0 0 0 0 loc) else none
    | none => none
  | none =>
    match matchMonthNameYMD s with
    | some (y, monthName, d) =>
      match getMonthByName monthName with
      | some mo =>
        if IsValidDate y mo d then some (goDate y mo d 0 0 0 0 loc) else none
      | none => none
    | none => none

/-- The match of
`^(\d{1,2})/([A-Za-z]{3})/(\d{4}):(\d{2}):(\d{2}):(\d{2})\s+([+-]\d{4})$`. -/
def matchHTTPLog (s : List Char) :
    Option (Nat × List Char × Nat × Nat × Nat × Nat × (Bool × Nat)) :=
  match digitsRange 1 2 s with
  | some (d, '/' :: r1) =>
    let (mon, r2) := spanAlpha r1
    if mon.length ≠ 3 then none
    else match r2 with
    | '/' :: r3 =>
      match digitsRange 4 4 r3 with
      | some (y, ':' :: r4) =>
        match digitsRange 2 2 r4 with
        | some (h, ':' :: r5) =>
          match digitsRange 2 2 r5 with
          | some (mi, ':' :: r6) =>
            match digitsRange 2 2 r6 with
            | some (se, r7) =>
              match spacePlus r7 with
              | some (sign :: r8) =>
                if sign = '+' ∨ sign = '-' then
                  match digitsRange 4 4 r8 with
                  | some (off, []) => some (d, mon, y, h, mi, se, (sign = '-', off))
                  | _ => none
                else none
              | _ => none
            | none => none
          | _ => none
        | _ => none
      | _ => none
    | _ => none
  | _ => none

/-- `parseHTTPLogFormat` (`10/Oct/2000:13:55:36 +0100`), fully validated,
fixed-offset zone. -/
def parseHTTPLogFormat (s : List Char) (loc : Int) : Option GoTime :=
  match matchHTTPLog s with
  | some (d, mon, y, h, mi, se, (neg, off)) =>
    match getMonthByName mon with
    | some mo =>
      if ¬ IsValidDate y mo d then none
      else if ¬ IsValidTime h mi se then none
      else
        let tzh : Int := off / 100
        let tzm : Int := off % 100
        if tzh < 0 ∨ 23 < tzh ∨ tzm < 0 ∨ 59 < tzm then none
        else
          let offSec := tzh * 3600 + tzm * 60
          some (goDate y mo d h mi se 0 (if neg then -offSec else offSec))
    | none => none
  | none => none

/-! ### Numbered-weekday sub-parser

The regular expression
`^(?:(\d+)|(first|1st|…|fifth|5th|last))\s+([A-Za-z]+)(?:\s+(?:of\s+)?)?([A-Za-z]+)(?:\s+(\d{4}))?$`
is compiled to a matcher with Go's leftmost-first submatch semantics: the
third group is tried from its longest letter run downwards, the optional
separator prefers `\s+of\s+`, then `\s+`, then nothing, and the trailing year
group prefers to match. -/

/-- The word-ordinal alternatives, in the order of the alternation. -/
def ordinalWords : List (List Char) :=
  ["first".data, "1st".data, "second".data, "2nd".data, "third".data, "3rd".data,
   "fourth".data, "4th".data, "fifth".data, "5th".data, "last".data]

/-- Match the tail `(?:\s+(?:of\s+)?)?([A-Za-z]+)(?:\s+(\d{4}))?$` after the
third group, returning the fourth group and the optional year. -/
def nwTail (rest : List Char) : Option (List Char × Option Nat) :=
  let branch (r : List Char) : Option (List Char × Option Nat) :=
    let (w2, r2) := spanAlpha r
    if w2.length = 0 then none
    else match r2 with
    | [] => some (w2, none)
    | _ =>
      match spacePlus r2 with
      | some r3 =>
        match digitsRange 4 4 r3 with
        | some (y, []) => some (w2, some y)
        | _ => none
      | none => none
  match spacePlus rest with
  | some r1 =>
    (match r1 with
     | 'o' :: 'f' :: r2 =>
       match spacePlus r2 with
       | some r3 => match branch r3 with | some out => some out | none => branch r1
       | none => branch r1
     | _ => branch r1)
  | none => branch rest

/-- Try the third group as each prefix of its letter run, longest first. -/
def nwThird (run rest : List Char) (len : Nat) :
    Option (List Char × List Char × Option Nat) :=
  match len with
  | 0 => none
  | k + 1 =>
    match nwTail (run.drop (k + 1) ++ rest) with
    | some (w2, y) => some (run.take (k + 1), w2, y)
    | none => nwThird run rest k

/-- `\s+` then the third and fourth groups with the optional year. -/
def nwAfterOrdinal (rest : List Char) : Option (List Char × List Char × Option Nat) :=
  match spacePlus rest with
  | none => none
  | some r1 =>
    let (run, r2) := spanAlpha r1
    nwThird run r2 run.length

/-- The full match of the numbered-weekday expression: ordinal (numeric or
word; the word is returned raw), weekday group, month group, optional year.
The alternation tries the numeric ordinal first and falls back to the word
alternatives (so `1st` matches as a word after `1` fails to be followed by
whitespace), in Go's leftmost-first order. -/
def matchNumberedWeekday (s : List Char) :
    Option ((Option Nat × Option (List Char)) × List Char × List Char × Option Nat) :=
  let wordBranch : Option ((Option Nat × Option (List Char)) × List Char × List Char × Option Nat) :=
    match ordinalWords.find? (fun w => startsWith w s) with
    | some w =>
      match nwAfterOrdinal (s.drop w.length) with
      | some (w1, w2, y) => some ((none, some w), w1, w2, y)
      | none => none
    | none => none
  match spanDigits s with
  | ([], _) => wordBranch
  | (ds, rest) =>
    match nwAfterOrdinal rest with
    | some (w1, w2, y) => some ((some (natOfDigits ds), none), w1, w2, y)
    | none => wordBranch

/-- `parseNumberedWeekday` (`first Monday of December 2008`, `3rd Friday
January`, `last Monday December 2008`): numeric ordinals `1–5` only, `last`
computed backwards from the month's final day, nonexistent occurrences
rejected. -/
def parseNumberedWeekday (s : List Char) (now : GoTime) (loc : Int) : Option GoTime :=
  match matchNumberedWeekday s with
  | none => none
  | some ((onum, oword), wdog, mong, yg) =>
    let ordinal? : Option Int :=
      match onum with
      | some n => if n ≤ 0 ∨ 5 < n then none else some n
      | none =>
        match oword with
        | some w =>
          lookupTable
            [("first".data, 1), ("1st".data, 1), ("second".data, 2), ("2nd".data, 2),
             ("third".data, 3), ("3rd".data, 3), ("fourth".data, 4), ("4th".data, 4),
             ("fifth".data, 5), ("5th".data, 5), ("last".data, -1)]
            (toLowerL w)
        | none => none
    match ordinal? with
    | none => none
    | some ordinal =>
      let dayOfWeek := getDayOfWeek wdog
      if dayOfWeek < 0 then none
      else match getMonthByName mong with
      | none => none
      | some mo =>
        let year? : Option Int :=
          match yg with
          | none => some now.year
          | some y => if (y : Int) < 1 ∨ 9999 < (y : Int) then none else some y
        match year? with
        | none => none
        | some year =>
          let firstOfMonth := goDate year mo 1 0 0 0 0 loc
          let firstDayOfWeek := firstOfMonth.weekday
          let daysUntilFirst := (dayOfWeek - firstDayOfWeek + 7) % 7
          if 0 < ordinal then
            let resultDay := 1 + daysUntilFirst + (ordinal - 1) * 7
            if daysInMonth year mo < resultDay then none
            else some (goDate year mo resultDay 0 0 0 0 loc)
          else if ordinal = -1 then
            let lastDayOfMonth := daysInMonth year mo
            let lastOfMonth := goDate year mo lastDayOfMonth 0 0 0 0 loc
            let lastDayOfWeek := lastOfMonth.weekday
            let resultDay :=
              if lastDayOfWeek = dayOfWeek then lastDayOfMonth
              else lastDayOfMonth - ((lastDayOfWeek - dayOfWeek + 7) % 7)
            some (goDate year mo resultDay 0 0 0 0 loc)
          else none

/-! ## Timezone-qualified formats (`date_with_timezone.go`, latest snapshot) -/

/-- A character of the trailing timezone group `[a-zA-Z0-9/_.]`. -/
def isTzGroupChar (c : Char) : Bool :=
  isAlphaChar c || isDigitChar c || c = '/' || c = '_' || c = '.'

/-- The trailing `\s+([a-zA-Z0-9/_.]+)$` of the timezone-qualified formats. -/
def matchTzTail (s : List Char) : Option (List Char) :=
  match spacePlus s with
  | none => none
  | some r =>
    let (tz, rest) := (r.takeWhile isTzGroupChar, r.dropWhile isTzGroupChar)
    if tz.length = 0 ∨ rest ≠ [] then none else some tz

/-- `HH:MM[:SS]` as matched inside the timezone-qualified formats
(`(\d{1,2}):(\d{1,2})(?::(\d{1,2}))?`), returning the components and the
rest. -/
def matchClock (s : List Char) : Option ((Nat × Nat × Option Nat) × List Char) :=
  match digitsRange 1 2 s with
  | some (h, ':' :: r1) =>
    match digitsRange 1 2 r1 with
    | some (mi, r2) =>
      match r2 with
      | ':' :: r3 =>
        (match digitsRange 1 2 r3 with
         | some (se, r4) => some ((h, mi, some se), r4)
         | none => some ((h, mi, none), ':' :: r3))
      | _ => some ((h, mi, none), r2)
    | none => none
  | _ => none

/-- The match of
`^([a-zA-Z]+)\s+(\d{1,2})(?:st|nd|rd|th)?\s+(\d{4})(?:\s+(\d{1,2}):(\d{1,2})(?::(\d{1,2}))?)?\s+([a-zA-Z0-9/_.]+)$`. -/
def matchFullDateTz (s : List Char) :
    Option (List Char × Nat × Nat × Option (Nat × Nat × Option Nat) × List Char) :=
  let (mon, r1) := spanAlpha s
  if mon.length = 0 then none
  else match spacePlus r1 with
  | none => none
  | some r2 =>
    match digitsRange 1 2 r2 with
    | none => none
    | some (d, r3) =>
      let r4 :=
        match r3 with
        | 's' :: 't' :: r => r
        | 'n' :: 'd' :: r => r
        | 'r' :: 'd' :: r => r
        | 't' :: 'h' :: r => r
        | r => r
      match spacePlus r4 with
      | none => none
      | some r5 =>
        match digitsRange 4 4 r5 with
        | none => none
        | some (y, r6) =>
          let withTime : Option (Option (Nat × Nat × Option Nat) × List Char) :=
            match spacePlus r6 with
            | some r7 =>
              match matchClock r7 with
              | some (clk, r8) => some (some clk, r8)
              | none => none
            | none => none
          let finish (clk : Option (Nat × Nat × Option Nat)) (r : List Char) :=
            match matchTzTail r with
            | some tz => some (mon, d, y, clk, tz)
            | none => none
          match withTime with
          | some (clk, r8) =>
            (match finish clk r8 with
             | some out => some out
             | none => finish none r6)
          | none => finish none r6

/-- The match of
`^(\d{4}-\d{1,2}-\d{1,2})\s+(\d{1,2}):(\d{1,2}):(\d{1,2})\s+([a-zA-Z0-9/_.]+)$`,
returning the date substring, the clock and the timezone group. -/
def matchIsoTz (s : List Char) :
    Option (List Char × (Nat × Nat × Nat) × List Char) :=
  match spanDigits s with
  | (y4, '-' :: r1) =>
    if y4.length ≠ 4 then none
    else match digitsRange 1 2 r1 with
    | some (_, '-' :: r2) =>
      match digitsRange 1 2 r2 with
      | some (_, r3) =>
        let dateStr := s.take (s.length - r3.length)
        match spacePlus r3 with
        | none => none
        | some r4 =>
          match digitsRange 1 2 r4 with
          | some (h, ':' :: r5) =>
            match digitsRange 1 2 r5 with
            | some (mi, ':' :: r6) =>
              match digitsRange 1 2 r6 with
              | some (se, r7) =>
                match matchTzTail r7 with
                | some tz => some (dateStr, (h, mi, se), tz)
                | none => none
              | none => none
            | _ => none
          | _ => none
      | none => none
    | _ => none
  | _ => none

/-- The match of `^(\d{1,2}):(\d{1,2})(?::(\d{1,2}))?\s+([a-zA-Z0-9/_.]+)$`. -/
def matchTimeOnlyTz (s : List Char) :
    Option ((Nat × Nat × Option Nat) × List Char) :=
  match matchClock s with
  | some (clk, r) =>
    match matchTzTail r with
    | some tz => some (clk, tz)
    | none => none
  | none => none

/-- `parseFullDateTimeWithTimezone` (latest snapshot): month name + day +
year + optional time + mandatory resolvable zone; day, year, month length
(leap-aware) and clock ranges validated. -/
def parseFullDateTimeWithTimezone (db : List Char → Option Int) (s : List Char) :
    Option GoTime :=
  match matchFullDateTz s with
  | none => none
  | some (monthName, d, y, clk, tzg) =>
    match getMonthByName monthName with
    | none => none
    | some mo =>
      if (d : Int) < 1 ∨ 31 < (d : Int) then none
      else if (y : Int) < 1 ∨ 9999 < (y : Int) then none
      else
        let maxDays : Int :=
          if mo = 4 ∨ mo = 6 ∨ mo = 9 ∨ mo = 11 then 30
          else if mo = 2 then (if isLeapYear y then 29 else 28)
          else 31
        if maxDays < (d : Int) then none
        else
          let hms? : Option (Int × Int × Int) :=
            match clk with
            | none => some (0, 0, 0)
            | some (h, mi, ose) =>
              if (h : Int) < 0 ∨ 23 < (h : Int) then none
              else if (mi : Int) < 0 ∨ 59 < (mi : Int) then none
              else match ose with
                | none => some (h, mi, 0)
                | some se =>
                  if (se : Int) < 0 ∨ 59 < (se : Int) then none
                  else some (h, mi, se)
          match hms? with
          | none => none
          | some (h, mi, se) =>
            match tryParseTimezone db tzg with
            | none => none
            | some tzLoc => some (goDate y mo d h mi se 0 tzLoc)

/-- `parseWithTimezone` (latest snapshot): full date + zone, ISO date + time
+ zone, and bare time + zone (which takes its calendar date from the host
wall clock `hostNow` in the resolved zone). -/
def parseWithTimezone (db : List Char → Option Int) (hostNow : GoTime)
    (s : List Char) (loc : Int) : Option GoTime :=
  match parseFullDateTimeWithTimezone db s with
  | some t => some t
  | none =>
    match matchIsoTz s with
    | some (dateStr, (h, mi, se), tzg) =>
      if (h : Int) < 0 ∨ 23 < (h : Int) ∨ (mi : Int) < 0 ∨ 59 < (mi : Int) ∨
          (se : Int) < 0 ∨ 59 < (se : Int) then none
      else
        match parseISOFormat dateStr loc with
        | none => none
        | some t =>
          let t := goDate t.year t.month t.day h mi se 0 t.loc
          match tryParseTimezone db tzg with
          | none => none
          | some tzLoc => some (t.inLoc tzLoc)
    | none =>
      match matchTimeOnlyTz s with
      | some ((h, mi, ose), tzg) =>
        let se : Nat := ose.getD 0
        if (h : Int) < 0 ∨ 23 < (h : Int) ∨ (mi : Int) < 0 ∨ 59 < (mi : Int) then none
        else if ose.isSome ∧ ((se : Int) < 0 ∨ 59 < (se : Int)) then none
        else
          match tryParseTimezone db tzg with
          | none => none
          | some tzLoc =>
            let now := hostNow.inLoc tzLoc
            some (goDate now.year now.month now.day h mi se 0 tzLoc)
      | none => none

/-! ## Tokenizer (`token.go`) -/

inductive TokType where
  | str | num | op | ws | punct
  deriving DecidableEq, Repr

/-- A lexical token: value, kind, byte offset of its first character. -/
structure Token where
  val : List Char
  typ : TokType
  pos : Nat
  deriving DecidableEq, Repr

/-- Character classification of the tokenizer, checked in the source's order:
whitespace, digit, operator (`+ - : / .`), punctuation (`, ; ( ) [ ]`),
anything else a string character. -/
def classifyChar (c : Char) : TokType :=
  if isSpaceChar c then .ws
  else if isDigitChar c then .num
  else if c = '+' || c = '-' || c = ':' || c = '/' || c = '.' then .op
  else if c = ',' || c = ';' || c = '(' || c = ')' || c = '[' || c = ']' then .punct
  else .str

/-- `Tokenize`: adjacent same-class runes merge into one token. -/
def tokenize (s : List Char) : List Token :=
  match s with
  | [] => []
  | c :: rest => go rest 1 [c] (classifyChar c) 0
where
  go : List Char → Nat → List Char → TokType → Nat → List Token
  | [], _, cur, curT, pos => [⟨cur, curT, pos⟩]
  | c :: rest, i, cur, curT, pos =>
    let t := classifyChar c
    if t = curT then go rest (i + 1) (cur ++ [c]) curT pos
    else ⟨cur, curT, pos⟩ :: go rest (i + 1) [c] t i

/-! ## Time-unit normalization (`normalizeTimeUnit`, latest snapshot) -/

/-- The unit-variation table. -/
def unitMap : List (List Char × List Char) :=
  [("d".data, "day".data), ("day".data, "day".data), ("days".data, "day".data),
   ("days.".data, "day".data),
   ("w".data, "week".data), ("wk".data, "week".data), ("wks".data, "week".data),
   ("wks.".data, "week".data), ("week".data, "week".data), ("weeks".data, "week".data),
   ("m".data, "month".data), ("mon".data, "month".data), ("mons".data, "month".data),
   ("mons.".data, "month".data), ("month".data, "month".data),
   ("months".data, "month".data),
   ("y".data, "year".data), ("yr".data, "year".data), ("yrs".data, "year".data),
   ("yrs.".data, "year".data), ("year".data, "year".data), ("years".data, "year".data),
   ("h".data, "hour".data), ("hr".data, "hour".data), ("hrs".data, "hour".data),
   ("hrs.".data, "hour".data), ("hour".data, "hour".data), ("hours".data, "hour".data),
   ("hourss".data, "hour".data),
   ("min".data, "minute".data), ("mins".data, "minute".data),
   ("mins.".data, "minute".data), ("minute".data, "minute".data),
   ("minutes".data, "minute".data),
   ("sec".data, "second".data), ("secs".data, "second".data),
   ("secs.".data, "second".data), ("second".data, "second".data),
   ("seconds".data, "second".data)]

/-- `normalizeTimeUnit`: exact lookup, lookup after stripping one trailing
`s`, then word-initial matching; otherwise the unit is returned unchanged. -/
def normalizeTimeUnit (unit : List Char) : List Char :=
  let lu := toLowerL unit
  match lookupTable unitMap lu with
  | some c => c
  | none =>
    let trimmed := if lu.getLast? = some 's' then lu.dropLast else lu
    match lookupTable unitMap trimmed with
    | some c => c
    | none =>
      if startsWith "day".data lu then "day".data
      else if startsWith "week".data lu then "week".data
      else if startsWith "month".data lu then "month".data
      else if startsWith "year".data lu then "year".data
      else if startsWith "hour".data lu || startsWith "hr".data lu then "hour".data
      else if startsWith "min".data lu then "minute".data
      else if startsWith "sec".data lu then "second".data
      else unit

/-! ## Token-stream parser (`Parser`, latest snapshot) -/

/-- The parser's mutable state: token stream, cursor, running result, active
location, one-shot timezone flag. -/
structure PState where
  toks : List Token
  pos : Nat
  result : GoTime
  loc : Int
  tzFound : Bool
  deriving Repr

/-- Number of leading whitespace tokens. -/
def leadingWs : List Token → Nat
  | [] => 0
  | t :: rest => if t.typ = TokType.ws then leadingWs rest + 1 else 0

/-- `skipWhitespace`. -/
def skipWs (p : PState) : PState :=
  { p with pos := p.pos + leadingWs (p.toks.drop p.pos) }

/-- Outcome of one recognizer: no match (cursor untouched), a recognizer
error (swallowed by the parse loop, cursor possibly advanced), or a new
running result. -/
inductive RecRes where
  | noMatch | recErr | got (t : GoTime)
  deriving Repr

/-- `Parser.tryParseTimezone`: single token, `Word / Word`, or
`Word Whitespace Word`; on success the location is fixed and the running
result redisplayed in it; otherwise the cursor is restored. -/
def tryParseTimezoneTok (db : List Char → Option Int) (p : PState) : PState × Bool :=
  let hit (tz : List Char) (adv : Nat) : Option PState :=
    match tryParseTimezone db tz with
    | some z =>
      some { p with loc := z, tzFound := true, pos := p.pos + adv,
                    result := p.result.inLoc z }
    | none => none
  let single :=
    match p.toks[p.pos]? with
    | some t => if t.typ = TokType.str then hit t.val 1 else none
    | none => none
  match single with
  | some p' => (p', true)
  | none =>
    let slashPair :=
      match p.toks[p.pos]?, p.toks[p.pos + 1]?, p.toks[p.pos + 2]? with
      | some t0, some t1, some t2 =>
        if t0.typ = TokType.str ∧ t1.typ = TokType.op ∧ t1.val = "/".data ∧ t2.typ = TokType.str then
          hit (t0.val ++ '/' :: t2.val) 3
        else none
      | _, _, _ => none
    match slashPair with
    | some p' => (p', true)
    | none =>
      let wordPair :=
        match p.toks[p.pos]?, p.toks[p.pos + 1]?, p.toks[p.pos + 2]? with
        | some t0, some t1, some t2 =>
          if t0.typ = TokType.str ∧ t1.typ = TokType.ws ∧ t2.typ = TokType.str then
            hit (t0.val ++ ' ' :: t2.val) 3
          else none
        | _, _, _ => none
      match wordPair with
      | some p' => (p', true)
      | none => (p, false)

/-- `Parser.tryParseStandardDate` (latest snapshot): five tokens
`num op num op num` with equal separators, format chosen by separator and
token width, validated through `IsValidDate`; the cursor advances only on
success. -/
def tryParseStandardDate (p : PState) : PState × RecRes :=
  match p.toks[p.pos]?, p.toks[p.pos + 1]?, p.toks[p.pos + 2]?,
        p.toks[p.pos + 3]?, p.toks[p.pos + 4]? with
  | some t0, some t1, some t2, some t3, some t4 =>
    if p.toks.length ≤ p.pos + 4 then (p, .noMatch)
    else if ¬ (t0.typ = TokType.num ∧ t2.typ = TokType.num ∧ t4.typ = TokType.num) then (p, .noMatch)
    else
      match parseInt64 t0.val, parseInt64 t2.val, parseInt64 t4.val with
      | some a, some b, some c =>
        if ¬ (t1.typ = TokType.op ∧ t3.typ = TokType.op) then (p, .noMatch)
        else if t1.val ≠ t3.val then (p, .noMatch)
        else
          let ymd? : Option (Int × Int × Int) :=
            if t1.val = "-".data then
              if t0.val.length = 4 then some (a, b, c) else none
            else if t1.val = "/".data then
              if t0.val.length = 4 then some (a, b, c)
              else if t4.val.length = 4 then some (c, a, b)
              else none
            else if t1.val = ".".data then
              some (if c < 100 then parseTwoDigitYear c else c, b, a)
            else none
          match ymd? with
          | none => (p, .noMatch)
          | some (y, mo, d) =>
            if ¬ IsValidDate y mo d then (p, .recErr)
            else ({ p with pos := p.pos + 5 }, .got (goDate y mo d 0 0 0 0 p.loc))
      | _, _, _ => (p, .recErr)
  | _, _, _, _, _ => (p, .noMatch)

/-- The fixed day-offset table of `next week` (Monday of the next week,
except that a Monday reference stays put). -/
def nextWeekDaysToAdd (dayOfWeek : Int) : Int :=
  if dayOfWeek = 0 then 1
  else if dayOfWeek = 1 then 0
  else if dayOfWeek = 2 then 6
  else if dayOfWeek = 3 then 5
  else if dayOfWeek = 4 then 4
  else if dayOfWeek = 5 then 3
  else if dayOfWeek = 6 then 2
  else 0

/-- The fixed day-offset table of `last week` (Monday of the previous
week). -/
def lastWeekDaysToSubtract (dayOfWeek : Int) : Int :=
  if dayOfWeek = 0 then 6
  else if dayOfWeek = 1 then 7
  else if dayOfWeek = 2 then 8
  else if dayOfWeek = 3 then 9
  else if dayOfWeek = 4 then 10
  else if dayOfWeek = 5 then 11
  else if dayOfWeek = 6 then 12
  else 0

/-- `next`/`last` with a weekday name: move to the next/previous occurrence,
a full week when already on that weekday, truncated to midnight. -/
def goNextLastWeekday (result : GoTime) (loc : Int) (isNext : Bool) (dayNum : Int) :
    GoTime :=
  let currentDay := result.weekday
  if isNext then
    let daysUntil := (dayNum - currentDay + 7) % 7
    let daysUntil := if daysUntil = 0 then 7 else daysUntil
    let nextDay := result.addDate 0 0 daysUntil
    goDate nextDay.year nextDay.month nextDay.day 0 0 0 0 loc
  else
    let daysSince := (currentDay - dayNum + 7) % 7
    let daysSince := if daysSince = 0 then 7 else daysSince
    let lastDay := result.addDate 0 0 (-daysSince)
    goDate lastDay.year lastDay.month lastDay.day 0 0 0 0 loc

/-- `Parser.tryParseNextLastExpression`. -/
def tryParseNextLast (p : PState) : PState × RecRes :=
  match p.toks[p.pos]? with
  | none => (p, .noMatch)
  | some t =>
    if ¬ (t.typ = TokType.str ∧ (t.val = "next".data ∨ t.val = "last".data)) then (p, .noMatch)
    else
      let isNext := t.val = "next".data
      let p1 := skipWs { p with pos := p.pos + 1 }
      match p1.toks[p1.pos]? with
      | none => (p1, .recErr)
      | some unitToken =>
        if unitToken.typ ≠ TokType.str then (p1, .recErr)
        else
          let p2 := { p1 with pos := p1.pos + 1 }
          if unitToken.val = "week".data then
            if isNext then
              (p2, .got (p2.result.addDate 0 0 (nextWeekDaysToAdd p2.result.weekday)))
            else
              (p2, .got (p2.result.addDate 0 0 (-(lastWeekDaysToSubtract p2.result.weekday))))
          else
            let dayNum := getDayOfWeek unitToken.val
            if 0 ≤ dayNum then
              (p2, .got (goNextLastWeekday p2.result p2.loc isNext dayNum))
            else if unitToken.val = "month".data then
              (p2, .got (p2.result.addDate 0 (if isNext then 1 else -1) 0))
            else if unitToken.val = "year".data then
              (p2, .got (p2.result.addDate (if isNext then 1 else -1) 0 0))
            else (p2, .recErr)

/-- `handleMonthEndDates`: when the day is the last of its month, add the
months first and then clamp the day to the last day of whatever month the
normalized addition landed in. -/
def handleMonthEndDates (t : GoTime) (amount : Int) (loc : Int) : Option GoTime :=
  if t.day = daysInMonth t.year t.month then
    let newDate := t.addDate 0 amount 0
    some (goDate newDate.year newDate.month (daysInMonth newDate.year newDate.month)
      t.hour t.minute t.second t.nsec loc)
  else none

/-- The month case of `applyTimeUnitOffset`: the end-of-month special case
when it applies, plain `AddDate` otherwise. -/
def monthUnitStep (t : GoTime) (amount loc : Int) : GoTime :=
  match handleMonthEndDates t amount loc with
  | some adjusted => adjusted
  | none => t.addDate 0 amount 0

/-- `Parser.applyTimeUnitOffset`: normalize the unit, then fixed-duration
arithmetic for day/week/hour/minute/second and calendar arithmetic for
month (with the end-of-month special case) and year; `none` is the
invalid-unit error. -/
def applyTimeUnitOffset (p : PState) (amount : Int) (unitStr : List Char) :
    Option GoTime :=
  let unit := normalizeTimeUnit unitStr
  if unit = "day".data then some (p.result.addDate 0 0 amount)
  else if unit = "week".data then some (p.result.addDate 0 0 (amount * 7))
  else if unit = "month".data then some (monthUnitStep p.result amount p.loc)
  else if unit = "year".data then some (p.result.addDate amount 0 0)
  else if unit = "hour".data then some (p.result.addSec (amount * 3600))
  else if unit = "minute".data then some (p.result.addSec (amount * 60))
  else if unit = "second".data then some (p.result.addSec amount)
  else none

/-- `Parser.tryParseRelativeTime` (`+N unit` / `-N unit`). -/
def tryParseRelativeTime (p : PState) : PState × RecRes :=
  match p.toks[p.pos]? with
  | none => (p, .noMatch)
  | some t =>
    if ¬ (t.typ = TokType.op ∧ (t.val = "+".data ∨ t.val = "-".data)) then (p, .noMatch)
    else
      let sign : Int := if t.val = "-".data then -1 else 1
      let p1 := { p with pos := p.pos + 1 }
      match p1.toks[p1.pos]? with
      | none => (p1, .recErr)
      | some amountToken =>
        if amountToken.typ ≠ TokType.num then (p1, .recErr)
        else
          match parseInt64 amountToken.val with
          | none => (p1, .recErr)
          | some amount =>
            let amount := amount * sign
            let p2 := skipWs { p1 with pos := p1.pos + 1 }
            match p2.toks[p2.pos]? with
            | none => (p2, .recErr)
            | some unitToken =>
              if unitToken.typ ≠ TokType.str then (p2, .recErr)
              else
                let p3 := { p2 with pos := p2.pos + 1 }
                match applyTimeUnitOffset p3 amount unitToken.val with
                | some r => (p3, .got r)
                | none => (p3, .recErr)

/-- `Parser.tryParseImplicitRelativeTime` (`N unit`, always positive). -/
def tryParseImplicitRelativeTime (p : PState) : PState × RecRes :=
  match p.toks[p.pos]? with
  | none => (p, .noMatch)
  | some t =>
    if t.typ ≠ TokType.num then (p, .noMatch)
    else
      match parseInt64 t.val with
      | none => (p, .recErr)
      | some amount =>
        let p1 := skipWs { p with pos := p.pos + 1 }
        match p1.toks[p1.pos]? with
        | none => (p1, .recErr)
        | some unitToken =>
          if unitToken.typ ≠ TokType.str then (p1, .recErr)
          else
            let p2 := { p1 with pos := p1.pos + 1 }
            match applyTimeUnitOffset p2 amount unitToken.val with
            | some r => (p2, .got r)
            | none => (p2, .recErr)

/-- The `Month Day` lookahead of `tryParseMonthOnlyFormat`: the next token
(or the one after a whitespace token) is a number. -/
def monthOnlyNextIsNumber (p : PState) : Bool :=
  match p.toks[p.pos + 1]? with
  | some nt =>
    decide (nt.typ = TokType.num) ||
      (decide (nt.typ = TokType.ws) &&
        (match p.toks[p.pos + 2]? with
         | some nnt => decide (nnt.typ = TokType.num)
         | none => false))
  | none => false

/-- `Parser.tryParseMonthOnlyFormat`: a bare month name (not followed by a
number) resolves to the first of that month in the running result's year. -/
def tryParseMonthOnly (p : PState) : PState × RecRes :=
  match p.toks[p.pos]? with
  | none => (p, .noMatch)
  | some monthToken =>
    if monthOnlyNextIsNumber p then (p, .noMatch)
    else if monthToken.typ ≠ TokType.str then (p, .noMatch)
    else
      match getMonthByName monthToken.val with
      | none => (p, .noMatch)
      | some mo =>
        ({ p with pos := p.pos + 1 },
         .got (goDate p.result.year mo 1 0 0 0 0 p.loc))

/-- The optional `HH:MM[:SS]` token run inside `tryParseMonthNameFormat`:
each component is kept only when parseable and in range, advancing the
cursor exactly as the source does. -/
def monthNameClock (p : PState) : PState × Int × Int × Int :=
  match p.toks[p.pos]?, p.toks[p.pos + 1]?, p.toks[p.pos + 2]? with
  | some t0, some t1, some t2 =>
    if p.toks.length ≤ p.pos + 4 then (p, 0, 0, 0)
    else if ¬ (t0.typ = TokType.num ∧ t1.typ = TokType.op ∧ t1.val = ":".data ∧ t2.typ = TokType.num) then
      (p, 0, 0, 0)
    else
      match parseInt64 t0.val with
      | some hv =>
        if hv < 0 ∨ 23 < hv then (p, 0, 0, 0)
        else
          let p1 := { p with pos := p.pos + 2 }
          match parseInt64 t2.val with
          | some mv =>
            if mv < 0 ∨ 59 < mv then (p1, hv, 0, 0)
            else
              let p2 := { p1 with pos := p1.pos + 1 }
              match p2.toks[p2.pos]?, p2.toks[p2.pos + 1]? with
              | some s0, some s1 =>
                if p2.toks.length ≤ p2.pos + 2 then (p2, hv, mv, 0)
                else if ¬ (s0.typ = TokType.op ∧ s0.val = ":".data ∧ s1.typ = TokType.num) then
                  (p2, hv, mv, 0)
                else
                  let p3 := { p2 with pos := p2.pos + 1 }
                  match parseInt64 s1.val with
                  | some sv =>
                    if sv < 0 ∨ 59 < sv then (p3, hv, mv, 0)
                    else ({ p3 with pos := p3.pos + 1 }, hv, mv, sv)
                  | none => (p3, hv, mv, 0)
              | _, _ => (p2, hv, mv, 0)
          | none => (p1, hv, 0, 0)
      | none => (p, 0, 0, 0)
  | _, _, _ => (p, 0, 0, 0)

/-- `Parser.tryParseMonthNameFormat` (latest snapshot): month name, day,
optional ordinal suffix, optional punctuation, optional year (default: the
running result's year), `IsValidDate` validation, optional clock, optional
trailing timezone. -/
def tryParseMonthName (db : List Char → Option Int) (p : PState) : PState × RecRes :=
  match p.toks[p.pos]? with
  | none => (p, .noMatch)
  | some monthToken =>
    if monthToken.typ ≠ TokType.str then (p, .noMatch)
    else
      match getMonthByName monthToken.val with
      | none => (p, .noMatch)
      | some mo =>
        let p1 := skipWs { p with pos := p.pos + 1 }
        match p1.toks[p1.pos]? with
        | none => (p1, .recErr)
        | some dayToken =>
          if dayToken.typ ≠ TokType.num then (p1, .recErr)
          else
            match parseInt64 dayToken.val with
            | none => (p1, .recErr)
            | some d =>
              let p2 := { p1 with pos := p1.pos + 1 }
              let p3 :=
                match p2.toks[p2.pos]? with
                | some sfx =>
                  if sfx.typ = TokType.str ∧
                      (toLowerL sfx.val = "st".data ∨ toLowerL sfx.val = "nd".data ∨
                       toLowerL sfx.val = "rd".data ∨ toLowerL sfx.val = "th".data) then
                    { p2 with pos := p2.pos + 1 }
                  else p2
                | none => p2
              let p4 :=
                match p3.toks[p3.pos]? with
                | some pt => if pt.typ = TokType.punct then { p3 with pos := p3.pos + 1 } else p3
                | none => p3
              let p5 := skipWs p4
              let yearStep : Option (PState × Int) :=
                match p5.toks[p5.pos]? with
                | some yt =>
                  if yt.typ = TokType.num then
                    match parseInt64 yt.val with
                    | some yv => some ({ p5 with pos := p5.pos + 1 }, yv)
                    | none => none
                  else some (p5, p5.result.year)
                | none => some (p5, p5.result.year)
              match yearStep with
              | none => (p5, .recErr)
              | some (p6, y) =>
                if ¬ IsValidDate y mo d then (p6, .recErr)
                else
                  let p7 := skipWs p6
                  let (p8, hh, mi, se) := monthNameClock p7
                  let p9 := skipWs p8
                  let p10 := (tryParseTimezoneTok db p9).1
                  (p10, .got (goDate y mo d hh mi se 0 p10.loc))

/-! ## The parse loop (`Parser.Parse`) -/

/-- Parse errors.  The recognizers' internal errors are discarded by the
parse loop (they come back with `ok == false`), so the errors that escape
`Parser.Parse` are the unexpected-token ones; the remaining constructors
belong to `StrToTime` itself. -/
inductive PErr where
  | emptyTimeString
  | invalidCompound
  | missingOperand
  | invalidTimeComponents (s : List Char)
  | invalidDateInDatetime (s : List Char)
  | unexpectedToken (v : List Char)
  | unparsable (s : List Char) (e : PErr)
  | fuelExhausted
  deriving DecidableEq, Repr

/-- One iteration of the recognizer chain: timezone (once), `next`/`last`,
signed relative, implicit relative, bare month, month-name format; `none`
means no recognizer accepted (`parsed` stayed false). -/
def parseStep (db : List Char → Option Int) (p : PState) : PState × Bool :=
  let (p, parsed) :=
    if ¬ p.tzFound then tryParseTimezoneTok db p else (p, false)
  if parsed then (p, true)
  else
    let (p, r) := tryParseNextLast p
    match r with
    | .got t => ({ p with result := t }, true)
    | _ =>
      let (p, r) := tryParseRelativeTime p
      match r with
      | .got t => ({ p with result := t }, true)
      | _ =>
        let (p, r) := tryParseImplicitRelativeTime p
        match r with
        | .got t => ({ p with result := t }, true)
        | _ =>
          let (p, r) := tryParseMonthOnly p
          match r with
          | .got t => ({ p with result := t }, true)
          | _ =>
            let (p, r) := tryParseMonthName db p
            match r with
            | .got t => ({ p with result := t }, true)
            | _ => (p, false)

/-- The loop of `Parser.Parse`: skip whitespace, run the recognizer chain,
and on a fully unrecognized position consume one token — an error unless it
is whitespace. -/
def parseLoop (db : List Char → Option Int) : Nat → PState → Except PErr GoTime
  | 0, _ => .error .fuelExhausted
  | fuel + 1, p =>
    let p := skipWs p
    if p.toks.length ≤ p.pos then .ok p.result
    else
      let (p', parsed) := parseStep db p
      if parsed then parseLoop db fuel p'
      else if p'.pos < p'.toks.length then
        match p'.toks[p'.pos]? with
        | some currentToken =>
          if currentToken.typ ≠ TokType.ws then
            .error (.unexpectedToken currentToken.val)
          else parseLoop db fuel { p' with pos := p'.pos + 1 }
        | none => parseLoop db fuel p'
      else parseLoop db fuel p'

/-- `Parser.Parse`: leading whitespace, one shot at the token-level standard
date formats, then the recognizer loop over the rest of the stream. -/
def runTokens (db : List Char → Option Int) (toks : List Token) (now : GoTime)
    (loc : Int) : Except PErr GoTime :=
  let p := skipWs ⟨toks, 0, now, loc, false⟩
  match tryParseStandardDate p with
  | (_, .got t) => .ok t
  | (p', _) => parseLoop db (toks.length + 1) p'

/-! ## Fractional-second model (`strconv.ParseFloat` + float64 arithmetic)

`StrToTime` parses the fraction of a Unix timestamp with
`strconv.ParseFloat("0."+frac, 64)` and converts with `int64(frac * 1e9)`.
This is modelled exactly: correctly-rounded (nearest-even) IEEE-754 binary64
for values in the normal range, which covers every digit string whose value
is not absurdly small.  Rationals are carried as unnormalized
numerator/denominator pairs (denominator positive, values nonnegative
throughout this use). -/

/-- Binary logarithm by fuelled halving (`fuel` bounds the bit length). -/
def log2Fuel : Nat → Nat → Nat
  | 0, _ => 0
  | fuel + 1, n => if n ≤ 1 then 0 else 1 + log2Fuel fuel (n / 2)

/-- `Nat.log2` on every operand appearing here (below 2^200 bits of fuel). -/
def ilog2 (n : Nat) : Nat := log2Fuel 200 n

/-- `2^e` as a numerator/denominator pair, for `e` of either sign. -/
def pow2 (e : Int) : Int × Int :=
  if 0 ≤ e then ((2 : Int) ^ e.toNat, 1) else (1, (2 : Int) ^ (-e).toNat)

/-- Product of two numerator/denominator pairs. -/
def qMul (a b : Int × Int) : Int × Int := (a.1 * b.1, a.2 * b.2)

/-- `a ≤ b` on pairs with positive denominators, by cross-multiplication. -/
def qLe (a b : Int × Int) : Bool := a.1 * b.2 ≤ b.1 * a.2

/-- The binade exponent of a positive rational `q = n/d`: the `e` with
`2^e ≤ q < 2^(e+1)`.  The bit-length guess is off by at most one and is
corrected by direct comparison. -/
def ratExp (q : Int × Int) : Int :=
  let guess : Int := (ilog2 q.1.natAbs : Int) - (ilog2 q.2.natAbs : Int)
  if qLe (pow2 (guess + 1)) q then guess + 1
  else if qLe (pow2 guess) q then guess
  else if qLe (pow2 (guess - 1)) q then guess - 1
  else guess - 2

/-- Round a nonnegative rational to an integer, nearest, ties to even. -/
def roundHalfEven (q : Int × Int) : Int :=
  let f := q.1 / q.2
  let r2 := 2 * (q.1 - f * q.2)
  if r2 < q.2 then f
  else if q.2 < r2 then f + 1
  else if f % 2 = 0 then f else f + 1

/-- Round a nonnegative rational to the nearest IEEE-754 binary64 value
(53-bit significand, nearest-even; normal range only, which suffices
here). -/
def roundDouble (q : Int × Int) : Int × Int :=
  if q.1 = 0 then (0, 1)
  else
    let e := ratExp q
    qMul (roundHalfEven (qMul q (pow2 (52 - e))), 1) (pow2 (e - 52))

/-- The exact rational value of the digit string `frac` read as `0.frac`. -/
def ratOfFrac (frac : List Char) : Int × Int :=
  ((natOfDigits frac : Int), (10 : Int) ^ frac.length)

/-- The nanosecond count the source computes from the fractional digits:
`fracPart := ParseFloat("0."+frac, 64)` (a parse failure — any non-digit —
yields `0.0`), then `int64(fracPart * 1e9)` (truncation).  Both the decimal
conversion and the multiplication round to nearest binary64. -/
def fracNanos (frac : List Char) : Int :=
  if frac.all isDigitChar then
    let d := roundDouble (qMul (roundDouble (ratOfFrac frac)) (1000000000, 1))
    d.1 / d.2
  else 0

/-- The digit-by-digit conversion of a fractional-second digit string to
nanoseconds that the spec describes (first nine digits, right-padded with
zeros; later digits truncated).  Stated from the spec's words, for
comparison with `fracNanos`. -/
def specDigitNanos (frac : List Char) : Int :=
  natOfDigits ((frac.take 9) ++ List.replicate (9 - frac.length) '0')

/-! ## Top level (`StrToTime`, latest snapshot) -/

/-- The operator-space normalizer
`strings.NewReplacer(" + ", "+", " - ", "-", "+ ", "+", "- ", "-")`. -/
def replaceOps : List Char → List Char
  | ' ' :: '+' :: ' ' :: rest => '+' :: replaceOps rest
  | ' ' :: '-' :: ' ' :: rest => '-' :: replaceOps rest
  | '+' :: ' ' :: rest => '+' :: replaceOps rest
  | '-' :: ' ' :: rest => '-' :: replaceOps rest
  | c :: rest => c :: replaceOps rest
  | [] => []

/-- The compound splitter: split at every `+`/`-` that is not the first
character; the operator becomes the prefix of the following segment.  An
empty trailing segment is dropped (the source of the dangling-operator
case). -/
def compoundSplitGo (l : List Char) : List (List Char) × List Char :=
  match l with
  | [] => ([], [])
  | c :: rest => go rest [c] [] []
where
  go : List Char → List Char → List (List Char) → List Char → List (List Char) × List Char
  | [], cur, parts, ops => (if cur ≠ [] then parts ++ [cur] else parts, ops)
  | c :: rest, cur, parts, ops =>
    if c = '+' ∨ c = '-' then go rest [] (parts ++ [cur]) (ops ++ [c])
    else go rest (cur ++ [c]) parts ops

/-- `isCompoundExpression`: after operator-space normalization, a `+` or `-`
occurs but not as the first character. -/
def isCompoundExpression (s : List Char) : Bool :=
  let n := replaceOps s
  (containsChar n '+' && !(startsWith "+".data n)) ||
  (containsChar n '-' && !(startsWith "-".data n))

/-- The loop of `parseCompoundExpression`: apply `op ++ part` segments to the
running result, left to right; a leftover operator with no matching segment
is the missing-operand error. -/
def compoundLoop (step : Option GoTime → List Char → Except PErr GoTime) :
    List Char → List (List Char) → GoTime → Except PErr GoTime
  | [], _, result => .ok result
  | _ :: _, [], _ => .error .missingOperand
  | o :: ops, part :: parts, result =>
    match step (some result) (o :: part) with
    | .error e => .error e
    | .ok r => compoundLoop step ops parts r

/-- `parseCompoundExpression`: normalize, split, require at least two
segments and one operator, then fold the segments left to right through the
full parse entry point (`step`). -/
def parseCompoundExpression (step : Option GoTime → List Char → Except PErr GoTime)
    (str : List Char) (now : GoTime) : Except PErr GoTime :=
  let normalized := replaceOps str
  let (parts, ops) := compoundSplitGo normalized
  if parts.length < 2 ∨ ops.length < 1 then .error .invalidCompound
  else
    match parts with
    | [] => .error .invalidCompound
    | p0 :: rest =>
      match step (some now) p0 with
      | .error e => .error e
      | .ok r => compoundLoop step ops rest r

/-- One alternative of the date-with-adjustment regex: the date shapes
`\d{4}-\d{1,2}-\d{1,2}`, `\d{4}/\d{1,2}/\d{1,2}`, `\d{1,2}/\d{1,2}/\d{4}`,
`\d{1,2}\.\d{1,2}\.\d{2,4}`, returning the rest after the date. -/
def matchDateAlt (s : List Char) : Option (List Char) :=
  let sep3 (l1a l1b : Nat) (c : Char) (l2a l2b l3a l3b : Nat) : Option (List Char) :=
    match digitsRange l1a l1b s with
    | some (_, c1 :: r1) =>
      if c1 = c then
        match digitsRange l2a l2b r1 with
        | some (_, c2 :: r2) =>
          if c2 = c then
            match digitsRange l3a l3b r2 with
            | some (_, r3) => some r3
            | none => none
          else none
        | _ => none
      else none
    | _ => none
  match sep3 4 4 '-' 1 2 1 2 with
  | some r => some r
  | none =>
    match sep3 4 4 '/' 1 2 1 2 with
    | some r => some r
    | none =>
      match sep3 1 2 '/' 1 2 4 4 with
      | some r => some r
      | none => sep3 1 2 '.' 1 2 2 4

/-- The match of
`^(<date>)\s+(.+)$` used by `parseDateWithRelativeTime`: the date part and
the (nonempty, newline-free) adjustment part. -/
def matchDateRel (s : List Char) : Option (List Char × List Char) :=
  match matchDateAlt s with
  | none => none
  | some r =>
    match spacePlus r with
    | none => none
    | some rest =>
      if rest = [] ∨ containsChar rest '\n' then none
      else some (s.take (s.length - r.length), rest)

/-- `parseDateWithRelativeTime`: parse the date, then — special case — when
the adjustment is exactly `-1 month` and the date is the last day of its
month, step to the last day of the previous month; otherwise reparse the
adjustment against the date.  Any error is a decline, not a failure. -/
def parseDateWithRelativeTime (step : Option GoTime → List Char → Except PErr GoTime)
    (str : List Char) (now : GoTime) (loc : Int) : Option GoTime :=
  match matchDateRel str with
  | none => none
  | some (datePart, timePart) =>
    match step (some now) datePart with
    | .error _ => none
    | .ok dateResult =>
      let generic : Option GoTime :=
        match step (some dateResult) timePart with
        | .error _ => none
        | .ok r => some r
      if timePart = "-1 month".data then
        if dateResult.day = daysInMonth dateResult.year dateResult.month then
          let firstOfMonth := goDate dateResult.year dateResult.month 1 0 0 0 0 loc
          let prevMonth := firstOfMonth.addDate 0 (-1) 0
          let lastDay := daysInMonth prevMonth.year prevMonth.month
          some (goDate prevMonth.year prevMonth.month lastDay
            dateResult.hour dateResult.minute dateResult.second dateResult.nsec loc)
        else generic
      else generic

/-- The match of the datetime shape
`^(\d{4}-\d{1,2}-\d{1,2})\s+(\d{1,2}):(\d{1,2}):(\d{1,2})$`. -/
def matchDatetime (s : List Char) : Option (List Char × Nat × Nat × Nat) :=
  match spanDigits s with
  | (y4, '-' :: r1) =>
    if y4.length ≠ 4 then none
    else match digitsRange 1 2 r1 with
    | some (_, '-' :: r2) =>
      match digitsRange 1 2 r2 with
      | some (_, r3) =>
        let dateStr := s.take (s.length - r3.length)
        match spacePlus r3 with
        | none => none
        | some r4 =>
          match digitsRange 1 2 r4 with
          | some (h, ':' :: r5) =>
            match digitsRange 1 2 r5 with
            | some (mi, ':' :: r6) =>
              match digitsRange 1 2 r6 with
              | some (se, []) => some (dateStr, h, mi, se)
              | _ => none
            | _ => none
          | _ => none
      | none => none
    | _ => none
  | _ => none

/-- The `@`-timestamp branch of `StrToTime`: seconds (64-bit), optional
fractional nanoseconds through `fracNanos`, optional trailing timezone that
only changes the display zone.  `none` falls through to the rest of the
pipeline (the `goto nextFormat` of the source). -/
def epochBranch (db : List Char → Option Int) (loc : Int) (str : List Char) :
    Option GoTime :=
  match str with
  | '@' :: u =>
    let (ts, orest) := splitFirstSpace u
    let applyTz (t : GoTime) : GoTime :=
      match orest with
      | some tzs =>
        if tzs ≠ [] then
          match tryParseTimezone db tzs with
          | some z => t.inLoc z
          | none => t
        else t
      | none => t
    if containsChar ts '.' then
      let ip := ts.takeWhile (· ≠ '.')
      let fp := (ts.dropWhile (· ≠ '.')).drop 1
      match parseInt64 ip with
      | none => none
      | some ut => some (applyTz ((unixTime ut (fracNanos fp) 0).inLoc loc))
    else
      match parseInt64 ts with
      | none => none
      | some ut => some (applyTz ((unixTime ut 0 0).inLoc loc))
  | _ => none

/-- `StrToTime` (latest snapshot), fuelled.  `db` is the host zone database,
`hostNow` the wall clock, `rel` the reference-time option, `loc` the
configured zone.  The pipeline order is the source's: `@`-timestamp,
European dots, `now`/`today`/`tomorrow`/`yesterday`, datetime, the
timezone-qualified family, ISO/slash/US, compact, month-name-dash, HTTP
log, numbered weekday, compound split, date-plus-adjustment, token
parser. -/
def strToTimeF (db : List Char → Option Int) (hostNow : GoTime) :
    Nat → Option GoTime → Int → List Char → Except PErr GoTime
  | 0, _, _, _ => .error .fuelExhausted
  | fuel + 1, rel, loc, str =>
    let now :=
      match rel with
      | some t => if t.loc ≠ loc then t.inLoc loc else t
      | none => hostNow.inLoc loc
    let str := toLowerL (trimL str)
    if str = [] then .error .emptyTimeString
    else
      match epochBranch db loc str with
      | some t => .ok t
      | none =>
        match parseEuropeanFormat str loc with
        | some t => .ok t
        | none =>
          if str = "now".data then .ok now
          else if str = "today".data then
            .ok (goDate now.year now.month now.day 0 0 0 0 loc)
          else if str = "tomorrow".data then
            let tm := now.addDate 0 0 1
            .ok (goDate tm.year tm.month tm.day 0 0 0 0 loc)
          else if str = "yesterday".data then
            let ys := now.addDate 0 0 (-1)
            .ok (goDate ys.year ys.month ys.day 0 0 0 0 loc)
          else
            match matchDatetime str with
            | some (datePart, h, mi, se) =>
              if (h : Int) < 0 ∨ 23 < (h : Int) ∨ (mi : Int) < 0 ∨ 59 < (mi : Int) ∨
                  (se : Int) < 0 ∨ 59 < (se : Int) then
                .error (.invalidTimeComponents str)
              else
                match parseISOFormat datePart loc with
                | none => .error (.invalidDateInDatetime str)
                | some t => .ok (goDate t.year t.month t.day h mi se 0 loc)
            | none =>
              match parseWithTimezone db hostNow str loc with
              | some t => .ok t
              | none =>
                match parseISOFormat str loc with
                | some t => .ok t
                | none =>
                  match parseSlashFormat str loc with
                  | some t => .ok t
                  | none =>
                    match parseUSFormat str loc with
                    | some t => .ok t
                    | none =>
                      match parseCompactTimestamp str loc with
                      | some t => .ok t
                      | none =>
                        match parseMonthNameFormat str loc with
                        | some t => .ok t
                        | none =>
                          match parseHTTPLogFormat str loc with
                          | some t => .ok t
                          | none =>
                            match parseNumberedWeekday str now loc with
                            | some t => .ok t
                            | none =>
                              if isCompoundExpression str then
                                parseCompoundExpression
                                  (strToTimeF db hostNow fuel · loc ·) str now
                              else
                                match parseDateWithRelativeTime
                                    (strToTimeF db hostNow fuel · loc ·) str now loc with
                                | some t => .ok t
                                | none =>
                                  let toks := tokenize str
                                  match runTokens db toks now loc with
                                  | .error e => .error (.unparsable str e)
                                  | .ok t => .ok t

/-- The parse entry point with default fuel (ample: the compound recursion
depth is bounded by the number of operators, itself below the string
length). -/
def strToTime (db : List Char → Option Int) (hostNow : GoTime) (rel : Option GoTime)
    (loc : Int) (str : List Char) : Except PErr GoTime :=
  strToTimeF db hostNow (str.length + 1) rel loc str

/-- The host zone database used to instantiate theorems: no names resolve
(the built-in abbreviation table is unaffected). -/
def noHostZones : List Char → Option Int := fun _ => none

/-- The character set the spec claims the timezone resolver admits,
`[A-Za-z0-9/_.+\- ]` — stated from the spec's words, for comparison with the
source's `isValidTimezoneChar` (which has no `.`). -/
def specTimezoneChar (c : Char) : Bool :=
  ('a' ≤ c && c ≤ 'z') || ('A' ≤ c && c ≤ 'Z') || ('0' ≤ c && c ≤ '9') ||
  c = '/' || c = '_' || c = '.' || c = '+' || c = '-' || c = ' '

/-- The weekday-name table of `getDayOfWeek`, used to quantify over every
weekday name a `next`/`last` expression accepts. -/
def weekdayNameTable : List (List Char × Int) :=
  [("sunday".data, 0), ("sun".data, 0), ("monday".data, 1), ("mon".data, 1),
   ("tuesday".data, 2), ("tue".data, 2), ("wednesday".data, 3), ("wed".data, 3),
   ("thursday".data, 4), ("thu".data, 4), ("friday".data, 5), ("fri".data, 5),
   ("saturday".data, 6), ("sat".data, 6)]

/-- A sample wall-clock instant for closed instances: 2025-06-15 12:00:00. -/
def sampleNow : GoTime := goDate 2025 6 15 12 0 0 0 0

/-- A sample reference time for closed instances: 2024-06-01 10:30:05. -/
def sampleRef : GoTime := goDate 2024 6 1 10 30 5 0 0

/-! ## Calendar correctness -/

/-- Assembly step of the round-trip: `daysFromCivil` applied to a peeled
civil date recovers the day count. -/
theorem dfcAssemble (era c q yq doy : Int)
    (hc : 0 ≤ c ∧ c ≤ 3) (hq : 0 ≤ q ∧ q ≤ 24) (hyq : 0 ≤ yq ∧ yq ≤ 3)
    (hdoy : 0 ≤ doy ∧ doy ≤ 365) :
    daysFromCivil
      (100*c+4*q+yq + era*400 +
        (if ((5*doy+2)/153 + (if (5*doy+2)/153 < 10 then 3 else -9)) ≤ 2 then 1 else 0))
      ((5*doy+2)/153 + (if (5*doy+2)/153 < 10 then 3 else -9))
      (doy - (153*((5*doy+2)/153)+2)/5 + 1)
      = era*146097 + (36524*c + 1461*q + 365*yq + doy) - 719468 := by
  unfold daysFromCivil
  dsimp only
  split_ifs <;> omega

set_option maxHeartbeats 1000000 in
/-- `daysFromCivil` inverts `civilFromDays` on every day count. -/
theorem daysFromCivil_civilFromDays (z : Int) :
    daysFromCivil (civilFromDays z).1 (civilFromDays z).2.1 (civilFromDays z).2.2 = z := by
  unfold civilFromDays
  dsimp only
  rw [dfcAssemble] <;> omega

set_option maxHeartbeats 1000000 in
/-- The month produced by `civilFromDays` lies in `[1, 12]`. -/
theorem civilFromDays_month_range (z : Int) :
    1 ≤ (civilFromDays z).2.1 ∧ (civilFromDays z).2.1 ≤ 12 := by
  unfold civilFromDays
  dsimp only
  split_ifs <;> omega

set_option maxHeartbeats 1000000 in
/-- The day produced by `civilFromDays` lies in `[1, 31]`. -/
theorem civilFromDays_day_range (z : Int) :
    1 ≤ (civilFromDays z).2.2 ∧ (civilFromDays z).2.2 ≤ 31 := by
  unfold civilFromDays
  dsimp only
  omega

set_option maxHeartbeats 1000000 in
/-- Assembly step for the month-length bound: once the peeled components of
`civilFromDays` are abstracted, with their ranges and the one fact tying the
capped day-of-year to leap years, the produced day is at most the Gregorian
month length. -/
theorem dayBoundAssemble (era c q yq doy : Int)
    (hc : 0 ≤ c ∧ c ≤ 3) (hq : 0 ≤ q ∧ q ≤ 24) (hyq : 0 ≤ yq ∧ yq ≤ 3)
    (hdoy : 0 ≤ doy ∧ doy ≤ 365)
    (hcap : doy = 365 → yq = 3 ∧ (q = 24 → c = 3)) :
    doy - (153*((5*doy+2)/153)+2)/5 + 1 ≤
      dimGreg (100*c+4*q+yq + era*400 +
          (if ((5*doy+2)/153 + (if (5*doy+2)/153 < 10 then 3 else -9)) ≤ 2 then 1 else 0))
        ((5*doy+2)/153 + (if (5*doy+2)/153 < 10 then 3 else -9)) := by
  unfold dimGreg isLeapYear
  split_ifs <;>
    simp only [Bool.and_eq_true, Bool.or_eq_true, beq_iff_eq, bne_iff_ne, not_and, not_or,
      not_not, Decidable.not_not] at * <;>
    omega

set_option maxHeartbeats 1000000 in
/-- The day produced by `civilFromDays` never exceeds the Gregorian length
of the produced month in the produced year. -/
theorem civilFromDays_day_le_dimGreg (z : Int) :
    (civilFromDays z).2.2 ≤ dimGreg (civilFromDays z).1 (civilFromDays z).2.1 := by
  unfold civilFromDays
  dsimp only
  exact dayBoundAssemble _ _ _ _ _ (by omega) (by omega) (by omega) (by omega) (by omega)

/-- The clock accessors recompose the wall-clock second of day. -/
theorem clock_recompose (t : GoTime) :
    t.hour * 3600 + t.minute * 60 + t.second = t.wall % 86400 := by
  unfold GoTime.hour GoTime.minute GoTime.second
  omega

/-- Clock accessor ranges: always valid, for every `GoTime`. -/
theorem clock_ranges (t : GoTime) :
    0 ≤ t.hour ∧ t.hour ≤ 23 ∧ 0 ≤ t.minute ∧ t.minute ≤ 59 ∧
    0 ≤ t.second ∧ t.second ≤ 59 := by
  unfold GoTime.hour GoTime.minute GoTime.second
  omega

/-- The weekday accessor lies in `[0, 6]`. -/
theorem weekday_range (t : GoTime) : 0 ≤ t.weekday ∧ t.weekday ≤ 6 := by
  unfold GoTime.weekday
  omega

/-- `daysFromCivil` is affine in the day component. -/
theorem daysFromCivil_day_affine (y m d : Int) :
    daysFromCivil y m d = daysFromCivil y m 1 + (d - 1) := by
  unfold daysFromCivil
  dsimp only
  split_ifs <;> omega

/-- `goDateSec` on the accessor fields of a time recovers its wall clock,
shifted by whole days. -/
theorem goDateSec_accessors (t : GoTime) (k : Int) :
    goDateSec t.year t.month (t.day + k) t.hour t.minute t.second =
      (t.days + k) * 86400 + t.wall % 86400 := by
  have hm : 1 ≤ t.month ∧ t.month ≤ 12 := civilFromDays_month_range t.days
  have hc := clock_recompose t
  have hrt : daysFromCivil t.year t.month t.day = t.days :=
    daysFromCivil_civilFromDays t.days
  have haf := daysFromCivil_day_affine t.year t.month t.day
  have e1 : (t.month - 1) / 12 = 0 := by omega
  have e2 : (t.month - 1) % 12 + 1 = t.month := by omega
  have e3 : daysFromCivil (t.year + 0) t.month 1 = t.days - (t.day - 1) := by
    rw [add_zero]; omega
  unfold goDateSec
  dsimp only
  rw [e1, e2, e3]
  omega

/-- `goDateSec` on the date accessors with a zero clock yields midnight of
the same day. -/
theorem goDateSec_date_only (t : GoTime) :
    goDateSec t.year t.month t.day 0 0 0 = t.days * 86400 := by
  have hm : 1 ≤ t.month ∧ t.month ≤ 12 := civilFromDays_month_range t.days
  have hrt : daysFromCivil t.year t.month t.day = t.days :=
    daysFromCivil_civilFromDays t.days
  have haf := daysFromCivil_day_affine t.year t.month t.day
  have e1 : (t.month - 1) / 12 = 0 := by omega
  have e2 : (t.month - 1) % 12 + 1 = t.month := by omega
  have e3 : daysFromCivil (t.year + 0) t.month 1 = t.days - (t.day - 1) := by
    rw [add_zero]; omega
  unfold goDateSec
  dsimp only
  rw [e1, e2, e3]
  omega

/-- `AddDate(0, 0, k)` moves the instant by exactly `k` wall days, keeping
the second-of-day, the nanoseconds and the location. -/
theorem addDate_days (t : GoTime) (k : Int) (hwf : t.wf) :
    t.addDate 0 0 k = ⟨(t.days + k) * 86400 + t.wall % 86400 - t.loc, t.nsec, t.loc⟩ := by
  obtain ⟨w1, w2⟩ := hwf
  have h := goDateSec_accessors t k
  have h1 : t.nsec / 1000000000 = 0 := by omega
  have h2 : t.nsec % 1000000000 = t.nsec := by omega
  unfold GoTime.addDate goDate unixTime
  simp only [add_zero]
  rw [h, h1, h2, add_zero]

/-- `AddDate(0, 0, 0)` is the identity on normalized times. -/
theorem addDate_zero (t : GoTime) (hwf : t.wf) : t.addDate 0 0 0 = t := by
  rw [addDate_days t 0 hwf]
  have hs : (t.days + 0) * 86400 + t.wall % 86400 - t.loc = t.sec := by
    unfold GoTime.days GoTime.wall
    omega
  rw [hs]

/-- The day number and second-of-day of an `AddDate(0, 0, k)` result. -/
theorem addDate_days_accessor (t : GoTime) (k : Int) (hwf : t.wf) :
    (t.addDate 0 0 k).days = t.days + k ∧
    (t.addDate 0 0 k).wall % 86400 = t.wall % 86400 ∧
    (t.addDate 0 0 k).nsec = t.nsec ∧ (t.addDate 0 0 k).loc = t.loc := by
  rw [addDate_days t k hwf]
  unfold GoTime.days GoTime.wall
  dsimp only
  refine ⟨by omega, by omega, rfl, rfl⟩

/-- The date-only truncation evaluates to midnight of the wall day in the
requested location. -/
theorem dateOnly_eval (t : GoTime) (loc : Int) :
    dateOnly t loc = ⟨t.days * 86400 - loc, 0, loc⟩ := by
  have h := goDateSec_date_only t
  have z1 : (0 : Int) / 1000000000 = 0 := by omega
  have z2 : (0 : Int) % 1000000000 = 0 := by omega
  unfold dateOnly goDate unixTime
  rw [h, z1, z2, add_zero]

/-- The weekday of an `AddDate(0, 0, k)` result shifts by `k` modulo 7. -/
theorem addDate_weekday (D : GoTime) (k : Int) (hwf : D.wf) :
    (D.addDate 0 0 k).weekday = (D.weekday + k) % 7 := by
  obtain ⟨hd, -, -, -⟩ := addDate_days_accessor D k hwf
  unfold GoTime.weekday
  rw [hd]
  omega

/-- `goDateSec` on the date accessors with an arbitrary clock is midnight of
the day plus the clock seconds. -/
theorem goDateSec_clock_shift (t : GoTime) (hh mi ss : Int) :
    goDateSec t.year t.month t.day hh mi ss =
      t.days * 86400 + hh * 3600 + mi * 60 + ss := by
  have h := goDateSec_date_only t
  unfold goDateSec at h ⊢
  dsimp only at h ⊢
  omega

/-! ## Claim theorems -/

/-- C1: the end-of-month branch of the calendar month arithmetic does not
clamp to the last day of the *target* month: `-1 month` from 2023-05-31
returns 2023-05-31 unchanged, `+1 month` from 2023-01-31 lands on 2023-03-31,
and `+1 month` from 2020-01-31 lands on 2020-03-31 — each one month past the
clamp target the claim states (2023-04-30, 2023-02-28, 2020-02-29). -/
theorem c1_month_end_clamp_overshoot :
    strToTime noHostZones sampleNow (some (goDate 2023 5 31 10 0 0 0 0)) 0
        "-1 month".data = .ok (goDate 2023 5 31 10 0 0 0 0) ∧
    strToTime noHostZones sampleNow (some (goDate 2023 1 31 10 0 0 0 0)) 0
        "+1 month".data = .ok (goDate 2023 3 31 10 0 0 0 0) ∧
    strToTime noHostZones sampleNow (some (goDate 2020 1 31 10 0 0 0 0)) 0
        "+1 month".data = .ok (goDate 2020 3 31 10 0 0 0 0) ∧
    (goDate 2023 5 31 10 0 0 0 0).month = 5 ∧
    (goDate 2023 3 31 10 0 0 0 0).month = 3 ∧
    (goDate 2020 3 31 10 0 0 0 0).month = 3 :=
  ⟨rfl, rfl, rfl, by decide, by decide, by decide⟩

/-- C2 (counterexample): `2023-02-30` parses successfully and normalizes into
March, and `+8000 years` drives the year to 10024, beyond the claimed
`[1, 9999]` bound. -/
theorem c2_calendar_invariant_counterexample :
    strToTime noHostZones sampleNow (some sampleRef) 0 "2023-02-30".data
      = .ok (goDate 2023 3 2 0 0 0 0 0) ∧
    (goDate 2023 3 2 0 0 0 0 0).month = 3 ∧
    (goDate 2023 3 2 0 0 0 0 0).day = 2 ∧
    strToTime noHostZones sampleNow (some sampleRef) 0 "+8000 years".data
      = .ok (goDate 10024 6 1 10 30 5 0 0) ∧
    (goDate 10024 6 1 10 30 5 0 0).year = 10024 :=
  ⟨rfl, by decide, by decide, rfl, by decide⟩

/-- C2 (amended): every time a parse returns satisfies the Gregorian calendar
invariant on its accessors — month in `[1,12]`, day in `[1, length of that
month in that year]`, clock components in `[0,23]/[0,59]/[0,59]`.  The year
is not bounded and invalid civil dates can normalize forward, so the claimed
year range and rejection behaviour are dropped. -/
theorem c2_calendar_invariant (db : List Char → Option Int) (hostNow : GoTime)
    (rel : Option GoTime) (loc : Int) (str : List Char) (t : GoTime)
    (h : strToTime db hostNow rel loc str = .ok t) :
    1 ≤ t.month ∧ t.month ≤ 12 ∧ 1 ≤ t.day ∧ t.day ≤ dimGreg t.year t.month ∧
    0 ≤ t.hour ∧ t.hour ≤ 23 ∧ 0 ≤ t.minute ∧ t.minute ≤ 59 ∧
    0 ≤ t.second ∧ t.second ≤ 59 := by
  obtain ⟨m1, m2⟩ := civilFromDays_month_range t.days
  obtain ⟨d1, d2⟩ := civilFromDays_day_range t.days
  have d3 := civilFromDays_day_le_dimGreg t.days
  obtain ⟨h1, h2, h3, h4, h5, h6⟩ := clock_ranges t
  exact ⟨m1, m2, d1, d3, h1, h2, h3, h4, h5, h6⟩

/-- C2 (witness): the invariant instantiated on the concrete parse of
`now`. -/
theorem c2_calendar_invariant_witness :
    1 ≤ (sampleNow.inLoc 0).month ∧ (sampleNow.inLoc 0).month ≤ 12 ∧
    1 ≤ (sampleNow.inLoc 0).day ∧
    (sampleNow.inLoc 0).day ≤ dimGreg (sampleNow.inLoc 0).year (sampleNow.inLoc 0).month ∧
    0 ≤ (sampleNow.inLoc 0).hour ∧ (sampleNow.inLoc 0).hour ≤ 23 ∧
    0 ≤ (sampleNow.inLoc 0).minute ∧ (sampleNow.inLoc 0).minute ≤ 59 ∧
    0 ≤ (sampleNow.inLoc 0).second ∧ (sampleNow.inLoc 0).second ≤ 59 :=
  c2_calendar_invariant noHostZones sampleNow none 0 "now".data (sampleNow.inLoc 0) rfl

/-- C3: three members of the claimed rejection set do not error: the token
parser consumes their tokens, discards every recognizer error, and returns
the reference time unchanged (`2005-99-99`, `February 30, 2023`,
`February 29, 2023`).  Only the ordinal-overflow input and the empty string
error as claimed. -/
theorem c3_rejection_set_swallowed :
    strToTime noHostZones sampleNow (some sampleRef) 0 "2005-99-99".data
      = .ok sampleRef ∧
    strToTime noHostZones sampleNow (some sampleRef) 0 "February 30, 2023".data
      = .ok sampleRef ∧
    strToTime noHostZones sampleNow (some sampleRef) 0 "February 29, 2023".data
      = .ok sampleRef ∧
    strToTime noHostZones sampleNow (some sampleRef) 0
        "sixth Monday of January 2023".data
      = .error (.unparsable "sixth monday of january 2023".data
          (.unexpectedToken "sixth".data)) ∧
    strToTime noHostZones sampleNow (some sampleRef) 0 [] = .error .emptyTimeString :=
  ⟨rfl, rfl, rfl, rfl, rfl⟩

set_option maxRecDepth 40000 in
/-- C8 (counterexample): the fractional part is not converted digit-by-digit:
it goes through a binary64 float, so twenty nines round up to a full second
(`@0.99999999999999999999` parses to the instant 1 s, 0 ns) while the
digit-by-digit reading is 999999999 ns. -/
theorem c8_fractional_epoch_counterexample :
    strToTime noHostZones sampleNow (some sampleRef) 0
        "@0.99999999999999999999".data = .ok ⟨1, 0, 0⟩ ∧
    specDigitNanos "99999999999999999999".data = 999999999 ∧
    (⟨1, 0, 0⟩ : GoTime) ≠ unixTime 0 (specDigitNanos "99999999999999999999".data) 0 :=
  ⟨by decide, by decide, by decide⟩

set_option maxRecDepth 40000 in
/-- C8 (amended): the claim's concrete examples are exact — the float64
conversion reproduces the digit-by-digit nanosecond reading for
`.123456789`, `.000001`, and truncates `.1234567891` beyond nanosecond
precision — though exactness does not extend to every fraction. -/
theorem c8_fractional_epoch_examples :
    strToTime noHostZones sampleNow (some sampleRef) 0 "@1121373041.123456789".data
      = .ok ⟨1121373041, 123456789, 0⟩ ∧
    specDigitNanos "123456789".data = 123456789 ∧
    strToTime noHostZones sampleNow (some sampleRef) 0 "@1672531200.000001".data
      = .ok ⟨1672531200, 1000, 0⟩ ∧
    specDigitNanos "000001".data = 1000 ∧
    strToTime noHostZones sampleNow (some sampleRef) 0 "@1.1234567891".data
      = .ok ⟨1, 123456789, 0⟩ ∧
    specDigitNanos "1234567891".data = 123456789 :=
  ⟨by decide, by decide, by decide, by decide, by decide, by decide⟩

/-- C9 (counterexample): the admission character set has no `.`: a zone name
containing a dot is rejected before the lookup strategies even when the host
database resolves it, although the claimed set `[A-Za-z0-9/_.+\- ]` admits
every character of it. -/
theorem c9_timezone_admission_counterexample :
    tryParseTimezone (fun s => if s = "a.b".data then some 0 else none) "a.b".data
      = none ∧
    (fun s => if s = "a.b".data then some 0 else none) "a.b".data = some 0 ∧
    "a.b".data.all specTimezoneChar = true ∧ 2 ≤ "a.b".data.length :=
  ⟨rfl, by decide, by decide, by decide⟩

/-- C9 (amended): the resolver rejects strings shorter than 2 characters or
with a character outside the *source's* set `[A-Za-z0-9/_+\- ]` (no dot), and
admits exactly the rest to the lookup strategies. -/
theorem c9_timezone_admission (db : List Char → Option Int) (s : List Char) :
    (s.length < 2 ∨ s.all isValidTimezoneChar = false → tryParseTimezone db s = none) ∧
    (2 ≤ s.length → s.all isValidTimezoneChar = true →
      tryParseTimezone db s = tzStrategies db s) := by
  unfold tryParseTimezone
  constructor
  · intro h
    rcases h with h | h
    · rw [if_pos h]
    · by_cases hl : s.length < 2
      · rw [if_pos hl]
      · rw [if_neg hl, if_pos (by simp [h])]
  · intro h1 h2
    rw [if_neg (by omega), if_neg (by simp [h2])]

/-- C9 (witness): the admission rule instantiated at a too-short string and
at an admitted abbreviation. -/
theorem c9_timezone_admission_witness :
    tryParseTimezone noHostZones "x".data = none ∧
    tryParseTimezone noHostZones "est".data = tzStrategies noHostZones "est".data :=
  ⟨(c9_timezone_admission noHostZones "x".data).1 (Or.inl (by decide)),
   (c9_timezone_admission noHostZones "est".data).2 (by decide) (by decide)⟩

set_option maxHeartbeats 2000000 in
/-- C4: the compound expression `next year + 1 month + 1 week` is the
sequential left-to-right composition on any reference time: `+1 year`
(AddDate), then the month step (with its end-of-month branch) on that
result, then `+7 days` on that result. -/
theorem c4_compound_sequential_composition (hostNow : GoTime) (s n : Int) :
    strToTime noHostZones hostNow (some ⟨s, n, 0⟩) 0
        "next year + 1 month + 1 week".data
      = .ok ((monthUnitStep ((GoTime.mk s n 0).addDate 1 0 0) 1 0).addDate 0 0 (1 * 7)) := by
  have hl : (monthUnitStep ((GoTime.mk s n 0).addDate 1 0 0) 1 0).loc = 0 := by
    unfold monthUnitStep handleMonthEndDates
    split_ifs <;> rfl
  have hseg : strToTimeF noHostZones hostNow 28
      (some (monthUnitStep ((GoTime.mk s n 0).addDate 1 0 0) 1 0)) 0 "+1 week".data
      = .ok ((monthUnitStep ((GoTime.mk s n 0).addDate 1 0 0) 1 0).addDate 0 0 (1 * 7)) := by
    generalize monthUnitStep ((GoTime.mk s n 0).addDate 1 0 0) 1 0 = r2 at hl ⊢
    obtain ⟨a, b, c⟩ := r2
    have hc : c = 0 := hl
    subst hc
    rfl
  have hmain : strToTime noHostZones hostNow (some ⟨s, n, 0⟩) 0
      "next year + 1 month + 1 week".data
      = match strToTimeF noHostZones hostNow 28
          (some (monthUnitStep ((GoTime.mk s n 0).addDate 1 0 0) 1 0)) 0
          "+1 week".data with
        | .error e => .error e
        | .ok r => .ok r := rfl
  rw [hmain, hseg]

/-- C7 (counterexample): with a Monday reference, `next week` returns the
reference instant itself — not a Monday strictly after the reference. -/
theorem c7_week_monday_counterexample :
    strToTime noHostZones sampleNow (some (goDate 2023 1 2 15 4 5 0 0)) 0
        "next week".data = .ok (goDate 2023 1 2 15 4 5 0 0) ∧
    (goDate 2023 1 2 15 4 5 0 0).weekday = 1 :=
  ⟨rfl, by decide⟩

set_option maxHeartbeats 2000000 in
/-- C7 (amended): `next week`/`last week` apply the fixed day-offset tables
keyed by the current weekday to the running result (keeping the clock time).
The result always falls on a Monday; for `next week` it is 1–6 days ahead
except that a Monday reference stays put, and for `last week` it is 6–12
days back, always strictly before. -/
theorem c7_week_monday_table (hostNow : GoTime) (s n : Int)
    (hwf : (GoTime.mk s n 0).wf) :
    ∃ tn tl : GoTime,
      strToTime noHostZones hostNow (some ⟨s, n, 0⟩) 0 "next week".data = .ok tn ∧
      strToTime noHostZones hostNow (some ⟨s, n, 0⟩) 0 "last week".data = .ok tl ∧
      tn = (GoTime.mk s n 0).addDate 0 0 (nextWeekDaysToAdd (GoTime.mk s n 0).weekday) ∧
      tl = (GoTime.mk s n 0).addDate 0 0
        (-(lastWeekDaysToSubtract (GoTime.mk s n 0).weekday)) ∧
      tn.weekday = 1 ∧ tl.weekday = 1 ∧
      ((GoTime.mk s n 0).weekday = 1 → tn = GoTime.mk s n 0) ∧
      ((GoTime.mk s n 0).weekday ≠ 1 → (GoTime.mk s n 0).days < tn.days) ∧
      tn.days ≤ (GoTime.mk s n 0).days + 6 ∧
      (GoTime.mk s n 0).days - 12 ≤ tl.days ∧ tl.days < (GoTime.mk s n 0).days := by
  have hr := weekday_range (GoTime.mk s n 0)
  have hwkn := addDate_weekday (GoTime.mk s n 0)
    (nextWeekDaysToAdd (GoTime.mk s n 0).weekday) hwf
  have hwkl := addDate_weekday (GoTime.mk s n 0)
    (-(lastWeekDaysToSubtract (GoTime.mk s n 0).weekday)) hwf
  obtain ⟨hdn, -, -, -⟩ := addDate_days_accessor (GoTime.mk s n 0)
    (nextWeekDaysToAdd (GoTime.mk s n 0).weekday) hwf
  obtain ⟨hdl, -, -, -⟩ := addDate_days_accessor (GoTime.mk s n 0)
    (-(lastWeekDaysToSubtract (GoTime.mk s n 0).weekday)) hwf
  refine ⟨(GoTime.mk s n 0).addDate 0 0 (nextWeekDaysToAdd (GoTime.mk s n 0).weekday),
    (GoTime.mk s n 0).addDate 0 0 (-(lastWeekDaysToSubtract (GoTime.mk s n 0).weekday)),
    rfl, rfl, rfl, rfl, ?_, ?_, ?_, ?_, ?_, ?_, ?_⟩
  · rw [hwkn]; unfold nextWeekDaysToAdd; split_ifs <;> omega
  · rw [hwkl]; unfold lastWeekDaysToSubtract; split_ifs <;> omega
  · intro h1
    have hz : nextWeekDaysToAdd (GoTime.mk s n 0).weekday = 0 := by
      unfold nextWeekDaysToAdd; split_ifs <;> omega
    rw [hz]
    exact addDate_zero _ hwf
  · intro hne; rw [hdn]; unfold nextWeekDaysToAdd at *; split_ifs at * <;> omega
  · rw [hdn]; unfold nextWeekDaysToAdd; split_ifs <;> omega
  · rw [hdl]; unfold lastWeekDaysToSubtract; split_ifs <;> omega
  · rw [hdl]; unfold lastWeekDaysToSubtract; split_ifs <;> omega

/-- C7 (witness): the table semantics instantiated at a concrete reference. -/
theorem c7_week_monday_table_witness :
    ∃ tn tl : GoTime,
      strToTime noHostZones sampleNow (some ⟨1672671845, 0, 0⟩) 0 "next week".data
        = .ok tn ∧
      strToTime noHostZones sampleNow (some ⟨1672671845, 0, 0⟩) 0 "last week".data
        = .ok tl ∧
      tn = (GoTime.mk 1672671845 0 0).addDate 0 0
        (nextWeekDaysToAdd (GoTime.mk 1672671845 0 0).weekday) ∧
      tl = (GoTime.mk 1672671845 0 0).addDate 0 0
        (-(lastWeekDaysToSubtract (GoTime.mk 1672671845 0 0).weekday)) ∧
      tn.weekday = 1 ∧ tl.weekday = 1 ∧
      ((GoTime.mk 1672671845 0 0).weekday = 1 → tn = GoTime.mk 1672671845 0 0) ∧
      ((GoTime.mk 1672671845 0 0).weekday ≠ 1 →
        (GoTime.mk 1672671845 0 0).days < tn.days) ∧
      tn.days ≤ (GoTime.mk 1672671845 0 0).days + 6 ∧
      (GoTime.mk 1672671845 0 0).days - 12 ≤ tl.days ∧
      tl.days < (GoTime.mk 1672671845 0 0).days :=
  c7_week_monday_table sampleNow 1672671845 0 (by decide)

set_option maxHeartbeats 2000000 in
/-- C10: a bare clock-plus-zone input takes its calendar date from the host
wall clock, independently of the reference-time option: the result is the
host instant's date in the resolved zone with the given clock, and two hosts
on different wall days give different results for the same input and
options. -/
theorem c10_wall_clock_dependence :
    (∀ (rel : Option GoTime) (hostNow : GoTime),
      strToTime noHostZones hostNow rel 0 "22:30:41 gmt".data =
        .ok (goDate (hostNow.inLoc 0).year (hostNow.inLoc 0).month
          (hostNow.inLoc 0).day 22 30 41 0 0)) ∧
    (∀ h1 h2 : GoTime, (h1.inLoc 0).days ≠ (h2.inLoc 0).days →
      strToTime noHostZones h1 none 0 "22:30:41 gmt".data ≠
        strToTime noHostZones h2 none 0 "22:30:41 gmt".data) := by
  have base : ∀ (rel : Option GoTime) (hostNow : GoTime),
      strToTime noHostZones hostNow rel 0 "22:30:41 gmt".data =
        .ok (goDate (hostNow.inLoc 0).year (hostNow.inLoc 0).month
          (hostNow.inLoc 0).day 22 30 41 0 0) := fun rel hostNow => rfl
  refine ⟨base, ?_⟩
  intro h1 h2 hne heq
  rw [base none h1, base none h2] at heq
  injection heq with heq
  refine hne ?_
  have hsec := congrArg GoTime.sec heq
  have s1 := goDateSec_clock_shift (h1.inLoc 0) 22 30 41
  have s2 := goDateSec_clock_shift (h2.inLoc 0) 22 30 41
  unfold goDate unixTime at hsec
  dsimp only at hsec
  omega

/-- With more operators than remaining segments, the compound loop never
returns a value: it runs out of segments (missing operand) or propagates a
segment error. -/
theorem compoundLoop_error (step : Option GoTime → List Char → Except PErr GoTime) :
    ∀ (parts : List (List Char)) (ops : List Char) (r : GoTime),
      parts.length < ops.length →
      ∃ e, compoundLoop step ops parts r = .error e := by
  intro parts
  induction parts with
  | nil =>
    intro ops r h
    cases ops with
    | nil => simp at h
    | cons o os => exact ⟨.missingOperand, rfl⟩
  | cons p ps ih =>
    intro ops r h
    cases ops with
    | nil => simp at h
    | cons o os =>
      cases hstep : step (some r) (o :: p) with
      | error e =>
        refine ⟨e, ?_⟩
        unfold compoundLoop
        rw [hstep]
      | ok r2 =>
        have hlt : ps.length < os.length := by
          simp only [List.length_cons] at h
          omega
        obtain ⟨e, he⟩ := ih os r2 hlt
        refine ⟨e, ?_⟩
        unfold compoundLoop
        rw [hstep]
        exact he

/-- C5 (amended): whenever the compound split leaves a trailing operator with
no following segment (segment and operator counts equal), the compound parser
returns an error — some typed error, though not always
`InvalidCompoundExpression` — and never a value. -/
theorem c5_dangling_operator (step : Option GoTime → List Char → Except PErr GoTime)
    (str : List Char) (now : GoTime)
    (h : (compoundSplitGo (replaceOps str)).1.length
        = (compoundSplitGo (replaceOps str)).2.length) :
    ∃ e, parseCompoundExpression step str now = .error e := by
  unfold parseCompoundExpression
  rcases hsp : compoundSplitGo (replaceOps str) with ⟨parts, ops⟩
  rw [hsp] at h
  dsimp only at h
  dsimp only
  rw [hsp]
  dsimp only
  split_ifs with hlen
  · exact ⟨.invalidCompound, rfl⟩
  · cases parts with
    | nil => exact ⟨.invalidCompound, rfl⟩
    | cons p0 rest =>
      show ∃ e, (match step (some now) p0 with
        | .error e => (.error e : Except PErr GoTime)
        | .ok r => compoundLoop step ops rest r) = .error e
      cases hstep : step (some now) p0 with
      | error e => exact ⟨e, rfl⟩
      | ok r =>
        have hlt : rest.length < ops.length := by
          simp only [List.length_cons] at h
          omega
        obtain ⟨e, he⟩ := compoundLoop_error step rest ops r hlt
        exact ⟨e, he⟩

/-- C5 (witness): the dangling-operator error instantiated at `1 day +`. -/
theorem c5_dangling_operator_witness :
    ∃ e, parseCompoundExpression
        (fun rel str => strToTimeF noHostZones sampleNow 7 rel 0 str)
        "1 day +".data sampleRef = .error e :=
  c5_dangling_operator (fun rel str => strToTimeF noHostZones sampleNow 7 rel 0 str)
    "1 day +".data sampleRef (by decide)

/-- C5 (counterexample): two inputs whose compound split leaves a trailing
operator.  `now + now +` errors with an `unparsable` error, not the claimed
`InvalidCompoundExpression`; `@123 +` does not error at all — the epoch
branch consumes it first and returns a value. -/
theorem c5_dangling_operator_counterexample :
    strToTime noHostZones sampleNow (some sampleRef) 0 "now + now +".data
      = .error (.unparsable "+now".data (.unexpectedToken "now".data)) ∧
    (compoundSplitGo (replaceOps (toLowerL (trimL "now + now +".data)))).1.length
      = (compoundSplitGo (replaceOps (toLowerL (trimL "now + now +".data)))).2.length ∧
    (.error (.unparsable "+now".data (.unexpectedToken "now".data))
      : Except PErr GoTime) ≠ .error .invalidCompound ∧
    strToTime noHostZones sampleNow (some sampleRef) 0 "@123 +".data
      = .ok (unixTime 123 0 0) ∧
    (compoundSplitGo (replaceOps (toLowerL (trimL "@123 +".data)))).1.length
      = (compoundSplitGo (replaceOps (toLowerL (trimL "@123 +".data)))).2.length :=
  ⟨rfl, by decide, by decide, rfl, by decide⟩

/-- The `next` weekday navigation lands on the requested weekday, at
midnight, 1 to 7 days after the reference's day. -/
theorem goNextLast_next_spec (D : GoTime) (k : Int) (hwf : D.wf)
    (hk0 : 0 ≤ k) (hk7 : k ≤ 6) :
    (goNextLastWeekday D 0 true k).weekday = k ∧
    D.days + 1 ≤ (goNextLastWeekday D 0 true k).days ∧
    (goNextLastWeekday D 0 true k).days ≤ D.days + 7 := by
  have e : goNextLastWeekday D 0 true k =
      dateOnly (D.addDate 0 0
        (if (k - D.weekday + 7) % 7 = 0 then 7 else (k - D.weekday + 7) % 7)) 0 := rfl
  obtain ⟨hd, -, -, -⟩ := addDate_days_accessor D
    (if (k - D.weekday + 7) % 7 = 0 then 7 else (k - D.weekday + 7) % 7) hwf
  rw [e, dateOnly_eval]
  unfold GoTime.weekday GoTime.days GoTime.wall at hd ⊢
  dsimp only at hd ⊢
  split_ifs at hd ⊢ <;> omega

/-- The `last` weekday navigation lands on the requested weekday, at
midnight, 1 to 7 days before the reference's day. -/
theorem goNextLast_last_spec (D : GoTime) (k : Int) (hwf : D.wf)
    (hk0 : 0 ≤ k) (hk7 : k ≤ 6) :
    (goNextLastWeekday D 0 false k).weekday = k ∧
    D.days - 7 ≤ (goNextLastWeekday D 0 false k).days ∧
    (goNextLastWeekday D 0 false k).days ≤ D.days - 1 := by
  have e : goNextLastWeekday D 0 false k =
      dateOnly (D.addDate 0 0
        (-(if (D.weekday - k + 7) % 7 = 0 then 7
           else (D.weekday - k + 7) % 7))) 0 := rfl
  obtain ⟨hd, -, -, -⟩ := addDate_days_accessor D
    (-(if (D.weekday - k + 7) % 7 = 0 then 7 else (D.weekday - k + 7) % 7)) hwf
  rw [e, dateOnly_eval]
  unfold GoTime.weekday GoTime.days GoTime.wall at hd ⊢
  dsimp only at hd ⊢
  split_ifs at hd ⊢ <;> omega

/-- Assembly of one weekday table entry: once the two parses are reduced to
`goNextLastWeekday`, the round-trip properties follow from the navigation
lemmas. -/
theorem c6caseAux (hostNow : GoTime) (s n : Int) (hwf : (GoTime.mk s n 0).wf)
    (nm : List Char) (k : Int) (hk0 : 0 ≤ k) (hk7 : k ≤ 6)
    (en : strToTime noHostZones hostNow (some ⟨s, n, 0⟩) 0 ("next ".data ++ nm)
      = .ok (goNextLastWeekday ⟨s, n, 0⟩ 0 true k))
    (el : strToTime noHostZones hostNow (some ⟨s, n, 0⟩) 0 ("last ".data ++ nm)
      = .ok (goNextLastWeekday ⟨s, n, 0⟩ 0 false k)) :
    ∃ tn tl : GoTime,
      strToTime noHostZones hostNow (some ⟨s, n, 0⟩) 0 ("next ".data ++ nm) = .ok tn ∧
      strToTime noHostZones hostNow (some ⟨s, n, 0⟩) 0 ("last ".data ++ nm) = .ok tl ∧
      tn.weekday = k ∧ tl.weekday = k ∧
      (GoTime.mk s n 0).days + 1 ≤ tn.days ∧ tn.days ≤ (GoTime.mk s n 0).days + 7 ∧
      (GoTime.mk s n 0).days - 7 ≤ tl.days ∧
      tl.days ≤ (GoTime.mk s n 0).days - 1 := by
  obtain ⟨a1, a2, a3⟩ := goNextLast_next_spec ⟨s, n, 0⟩ k hwf hk0 hk7
  obtain ⟨b1, b2, b3⟩ := goNextLast_last_spec ⟨s, n, 0⟩ k hwf hk0 hk7
  exact ⟨_, _, en, el, a1, b1, a2, a3, b2, b3⟩

set_option maxHeartbeats 4000000 in
/-- C6: for every weekday name of the table and every normalized reference,
`next W` and `last W` land on weekday `W` at midnight, strictly 1 to 7 days
after (resp. before) the reference's day — a full week when the reference is
already on that weekday, never zero distance. -/
theorem c6_weekday_roundtrip (w : List Char × Int) (hw : w ∈ weekdayNameTable)
    (hostNow : GoTime) (s n : Int) (hwf : (GoTime.mk s n 0).wf) :
    ∃ tn tl : GoTime,
      strToTime noHostZones hostNow (some ⟨s, n, 0⟩) 0 ("next ".data ++ w.1)
        = .ok tn ∧
      strToTime noHostZones hostNow (some ⟨s, n, 0⟩) 0 ("last ".data ++ w.1)
        = .ok tl ∧
      tn.weekday = w.2 ∧ tl.weekday = w.2 ∧
      (GoTime.mk s n 0).days + 1 ≤ tn.days ∧ tn.days ≤ (GoTime.mk s n 0).days + 7 ∧
      (GoTime.mk s n 0).days - 7 ≤ tl.days ∧
      tl.days ≤ (GoTime.mk s n 0).days - 1 := by
  fin_cases hw <;>
    exact c6caseAux hostNow s n hwf _ _ (by decide) (by decide) rfl rfl

/-- C6 (witness): the weekday round-trip instantiated at `friday` and a
concrete reference. -/
theorem c6_weekday_roundtrip_witness :
    ∃ tn tl : GoTime,
      strToTime noHostZones sampleNow (some ⟨1672671845, 0, 0⟩) 0
          "next friday".data = .ok tn ∧
      strToTime noHostZones sampleNow (some ⟨1672671845, 0, 0⟩) 0
          "last friday".data = .ok tl ∧
      tn.weekday = 5 ∧ tl.weekday = 5 ∧
      (GoTime.mk 1672671845 0 0).days + 1 ≤ tn.days ∧
      tn.days ≤ (GoTime.mk 1672671845 0 0).days + 7 ∧
      (GoTime.mk 1672671845 0 0).days - 7 ≤ tl.days ∧
      tl.days ≤ (GoTime.mk 1672671845 0 0).days - 1 :=
  c6_weekday_roundtrip ("friday".data, 5) (by decide) sampleNow 1672671845 0 (by decide)

/-- C10 (witness): the wall-clock dependence instantiated at two concrete
host instants one day apart. -/
theorem c10_wall_clock_dependence_witness :
    strToTime noHostZones sampleNow (some sampleRef) 0 "22:30:41 gmt".data =
      .ok (goDate (sampleNow.inLoc 0).year (sampleNow.inLoc 0).month
        (sampleNow.inLoc 0).day 22 30 41 0 0) ∧
    strToTime noHostZones sampleNow none 0 "22:30:41 gmt".data ≠
      strToTime noHostZones (goDate 2025 6 16 3 4 5 0 0) none 0 "22:30:41 gmt".data :=
  ⟨c10_wall_clock_dependence.1 (some sampleRef) sampleNow,
   c10_wall_clock_dependence.2 sampleNow (goDate 2025 6 16 3 4 5 0 0) (by decide)⟩

end StrToTime
